import Mathlib

/-!
Generated typed clients: `daemonSets` (extensions/v1beta1) and `podMetricses`
(metrics/v1alpha1).

A shallow embedding of
`staging/src/k8s.io/client-go/kubernetes/typed/extensions/v1beta1/daemonset.go` and of the
list methods of `podmetrics.go`.

Go pointers are `Option`, Go `error` is `Option Err`, `int64` arithmetic is
`Int` reduced into the signed 64-bit range.  The REST client, the option
preparation helper and the consistency detectors live in other packages; they
are the fields of `Env`, and every call site of the source threads an explicit
state `σ` through them in source order.  Each function also returns the list of
calls its own body made (`Step`), in order.
-/

namespace K8s

/-- Go `error` values are represented by their message. -/
abbrev Err := String

/-- The `context.Context` handed down to every request, an uninterpreted token. -/
structure Context where
  id : Nat
  deriving DecidableEq, Repr

/-- Modelled from the spec: the resource-version match mode of the Query Options of §3,
"exact / not-older-than / unset" (declared in `k8s.io/apimachinery`). -/
inductive ResourceVersionMatch where
  | unset
  | Exact
  | NotOlderThan
  deriving DecidableEq, Repr

/-- Modelled from the spec: the Query Options of §3 (`v1.ListOptions`, declared in
`k8s.io/apimachinery`): selectors, resource-version token and match mode, the
initial-state and bookmark booleans, the timeout; `Watch` is the flag `Watch` sets at line
147 and `TimeoutSeconds` the `*int64` read by `list` and `watchList`. -/
structure ListOptions where
  LabelSelector : String := ""
  FieldSelector : String := ""
  Watch : Bool := false
  AllowWatchBookmarks : Bool := false
  ResourceVersion : String := ""
  ResourceVersionMatch : ResourceVersionMatch := .unset
  TimeoutSeconds : Option Int := none
  SendInitialEvents : Bool := false
  deriving DecidableEq, Repr

/-- Modelled from the spec: one item of a collection (`v1beta1.DaemonSet`, declared in
`k8s.io/api`), its identity and an uninterpreted payload. -/
structure DaemonSet where
  Name : String := ""
  Payload : String := ""
  deriving DecidableEq, Repr

/-- Modelled from the spec: the Collection Snapshot of §3 (`v1beta1.DaemonSetList`, declared
in `k8s.io/api`), items plus one resource version. -/
structure DaemonSetList where
  ResourceVersion : String := ""
  Items : List DaemonSet := []
  deriving DecidableEq, Repr

/-- Options `v1.ApplyOptions`; `daemonset.go` only passes them to `ToPatchOptions`. -/
structure ApplyOptions where
  raw : String := ""
  deriving DecidableEq, Repr

/-- Options `v1.PatchOptions`; `daemonset.go` only passes them to `VersionedParams`. -/
structure PatchOptions where
  raw : String := ""
  deriving DecidableEq, Repr

/-- The embedded `*v1.ObjectMetaApplyConfiguration` of an apply configuration (declared in
`k8s.io/client-go/applyconfigurations`); `Name` is the `*string` that `Apply` reads, the
rest is uninterpreted. -/
structure ObjectMetaApplyConfiguration where
  Name : Option String := none
  Payload : String := ""
  deriving DecidableEq, Repr

/-- The apply configuration `DaemonSetApplyConfiguration`. Its metadata is an embedded
pointer, so `daemonSet.Name` is the promoted field of `*ObjectMetaApplyConfiguration`, and
reading it through a nil pointer panics. -/
structure DaemonSetApplyConfiguration where
  ObjectMetaApplyConfiguration : Option ObjectMetaApplyConfiguration := none
  Payload : String := ""
  deriving DecidableEq, Repr

/-- HTTP verb chosen by `c.client.Get()`, `c.client.Patch(pt)`. -/
inductive Verb where
  | GET
  | PATCH
  deriving DecidableEq, Repr

/-- Patch types of `k8s.io/apimachinery/pkg/types`. -/
inductive PatchType where
  | JSONPatchType
  | MergePatchType
  | StrategicMergePatchType
  | ApplyPatchType
  deriving DecidableEq, Repr

/-- What `VersionedParams` was given. -/
inductive Params where
  | none
  | list (opts : ListOptions)
  | patch (opts : PatchOptions)
  deriving DecidableEq, Repr

/-- A `rest.Request` under construction: what the builder chain has set so far. -/
structure Request where
  verb : Verb
  patchType : Option PatchType := none
  ns : String := ""
  resource : String := ""
  name : Option String := none
  subresource : List String := []
  params : Params := .none
  timeout : Int := 0
  body : Option String := none
  deriving DecidableEq, Repr

/-- The receiver `daemonSets`: its namespace (the REST client is in `Env`). -/
structure daemonSets where
  ns : String
  deriving DecidableEq, Repr

/-- What a `(*DaemonSetList, error)` call leaves behind: the pair and the new state. -/
structure ListRet (σ : Type) where
  result : Option DaemonSetList
  err : Option Err
  state : σ

/-- The callable type of `c.list`, as handed to the consistency detectors. -/
abbrev ListFn (σ : Type) := Context → ListOptions → σ → ListRet σ

/-- What `PrepareWatchListOptionsFromListOptions` returns:
`(watchListOptions, hasWatchListOptionsPrepared, watchListOptionsErr)`. -/
structure Prepared where
  watchListOptions : ListOptions
  hasWatchListOptionsPrepared : Bool
  watchListOptionsErr : Option Err
  deriving DecidableEq, Repr

/-- The collaborators of `List`, `list` and `watchList`, none of which is defined in
`daemonset.go`.  `DoIntoList ctx req obj s` is `req.Do(ctx).Into(obj)` for a
list object, `WatchListInto` is `req.WatchList(ctx).Into(obj)`; both return the
object as the call left it, the error, and the new state. -/
structure Env (σ : Type) where
  PrepareWatchListOptionsFromListOptions : ListOptions → Prepared
  DoIntoList : Context → Request → DaemonSetList → σ → (DaemonSetList × Option Err) × σ
  WatchListInto : Context → Request → DaemonSetList → σ → (DaemonSetList × Option Err) × σ
  CheckWatchListFromCacheDataConsistencyIfRequested :
    Context → String → ListFn σ → ListOptions → Option DaemonSetList → σ → σ
  CheckListFromCacheDataConsistencyIfRequested :
    Context → String → ListFn σ → ListOptions → Option DaemonSetList → σ → σ

/-- The collaborators of `Apply` and `ApplyStatus`: `opts.ToPatchOptions()`,
`json.Marshal`, and `req.Do(ctx).Into(obj)` for a single object. -/
structure ApplyEnv (σ : Type) where
  ToPatchOptions : ApplyOptions → PatchOptions
  jsonMarshal : DaemonSetApplyConfiguration → Except Err String
  DoInto : Context → Request → DaemonSet → σ → (DaemonSet × Option Err) × σ

/-- A call made by the body of a client method, with what it was given and what it returned. -/
inductive Step (σ : Type) where
  | prepare (opts : ListOptions) (out : Prepared)
  | warning (msg : String)
  | watchList (opts : ListOptions) (result : Option DaemonSetList) (err : Option Err)
  | list (opts : ListOptions) (result : Option DaemonSetList) (err : Option Err)
  | checkWatchList (identity : String) (listFn : ListFn σ) (opts : ListOptions)
      (result : Option DaemonSetList)
  | checkList (identity : String) (listFn : ListFn σ) (opts : ListOptions)
      (result : Option DaemonSetList)

/-- What a call of `List` leaves behind: the returned pair, the calls made, the new state. -/
structure ListRun (σ : Type) where
  result : Option DaemonSetList
  err : Option Err
  trace : List (Step σ)
  state : σ

/-- What a call of `Apply` or `ApplyStatus` that returns leaves behind: the returned pair,
the requests on which it invoked `Do(ctx)` (handed to the REST client, which decides what
goes on the wire), and the state the client left. -/
structure ObjRun (σ : Type) where
  result : Option DaemonSet
  err : Option Err
  calls : List Request
  state : σ

/-- How a call of `Apply` or `ApplyStatus` ends: it returns, or it panics in the state
reached so far. -/
inductive ApplyOutcome (σ : Type) where
  | returned (run : ObjRun σ)
  | panic (reason : String) (state : σ)

/-- Reduction of an integer into the signed 64-bit range (Go `int64` wrap-around). -/
def wrapInt64 (x : Int) : Int := (x + 2 ^ 63) % 2 ^ 64 - 2 ^ 63

/-- The constant `time.Second`, in nanoseconds. -/
def timeSecond : Int := 1000000000

/-- The timeout computed at the top of `list`, `watchList`, `Watch`:
`time.Duration(*opts.TimeoutSeconds) * time.Second` when the pointer is set. -/
def timeoutOf (opts : ListOptions) : Int :=
  match opts.TimeoutSeconds with
  | none => 0
  | some t => wrapInt64 (t * timeSecond)

/-- The request built by `list` and `watchList`:
`c.client.Get().Namespace(c.ns).Resource("daemonsets").VersionedParams(&opts, ...).Timeout(timeout)`. -/
def daemonSets.listRequest (c : daemonSets) (opts : ListOptions) : Request :=
  { verb := .GET, ns := c.ns, resource := "daemonsets", params := .list opts,
    timeout := timeoutOf opts }

/-- The request built by `Apply` (no sub-resource) and `ApplyStatus` (`"status"`):
`c.client.Patch(types.ApplyPatchType).Namespace(c.ns).Resource("daemonsets").Name(*name)`
`.SubResource(...).VersionedParams(&patchOpts, ...).Body(data)`. -/
def daemonSets.applyRequest (c : daemonSets) (name : String) (sub : List String)
    (patchOpts : PatchOptions) (data : String) : Request :=
  { verb := .PATCH, patchType := some .ApplyPatchType, ns := c.ns, resource := "daemonsets",
    name := some name, subresource := sub, params := .patch patchOpts, body := some data }

/-- The method `daemonSets.list`: `result = &DaemonSetList{}` then `Do(ctx).Into(result)`. -/
def daemonSets.list {σ : Type} (env : Env σ) (c : daemonSets) : ListFn σ :=
  fun ctx opts s =>
    let r := env.DoIntoList ctx (c.listRequest opts) {} s
    { result := some r.1.1, err := r.1.2, state := r.2 }

/-- The method `daemonSets.watchList`: `result = &DaemonSetList{}` then
`WatchList(ctx).Into(result)`. -/
def daemonSets.watchList {σ : Type} (env : Env σ) (c : daemonSets) : ListFn σ :=
  fun ctx opts s =>
    let r := env.WatchListInto ctx (c.listRequest opts) {} s
    { result := some r.1.1, err := r.1.2, state := r.2 }

/-- Lines 100-104 of `List`, reached from three places: the plain list request and,
when it succeeds, the list detector. `trace` is what the body has done before. -/
def daemonSets.ListTail {σ : Type} (env : Env σ) (c : daemonSets) (ctx : Context)
    (opts : ListOptions) (trace : List (Step σ)) (s : σ) : ListRun σ :=
  let r := daemonSets.list env c ctx opts s
  match r.err with
  | none =>
    { result := r.result, err := r.err,
      trace := trace ++ [.list opts r.result r.err,
        .checkList "list request for daemonsets" (daemonSets.list env c) opts r.result],
      state := env.CheckListFromCacheDataConsistencyIfRequested ctx
        "list request for daemonsets" (daemonSets.list env c) opts r.result r.state }
  | some _ =>
    { result := r.result, err := r.err,
      trace := trace ++ [.list opts r.result r.err], state := r.state }

/-- The method `daemonSets.List`. -/
def daemonSets.List {σ : Type} (env : Env σ) (c : daemonSets) (ctx : Context)
    (opts : ListOptions) (s : σ) : ListRun σ :=
  let p := env.PrepareWatchListOptionsFromListOptions opts
  match p.watchListOptionsErr with
  | some e =>
    daemonSets.ListTail env c ctx opts
      [.prepare opts p,
       .warning ("Failed preparing watchlist options for daemonsets, falling back to the standard LIST semantics, err = " ++ e)]
      s
  | none =>
    if p.hasWatchListOptionsPrepared then
      let w := daemonSets.watchList env c ctx p.watchListOptions s
      match w.err with
      | none =>
        { result := w.result, err := none,
          trace := [.prepare opts p, .watchList p.watchListOptions w.result w.err,
            .checkWatchList "watchlist request for daemonsets" (daemonSets.list env c) opts
              w.result],
          state := env.CheckWatchListFromCacheDataConsistencyIfRequested ctx
            "watchlist request for daemonsets" (daemonSets.list env c) opts w.result w.state }
      | some e =>
        daemonSets.ListTail env c ctx opts
          [.prepare opts p, .watchList p.watchListOptions w.result w.err,
           .warning ("The watchlist request for daemonsets ended with an error, falling back to the standard LIST semantics, err = " ++ e)]
          w.state
    else
      daemonSets.ListTail env c ctx opts [.prepare opts p] s

/-- The method `daemonSets.Apply`. After the nil check and `json.Marshal`, `name :=
daemonSet.Name` reads the promoted field through the embedded metadata pointer (a panic
when that pointer is nil); with a name, `result = &DaemonSet{}` and the PATCH request goes
to `Do(ctx).Into(result)`. -/
def daemonSets.Apply {σ : Type} (env : ApplyEnv σ) (c : daemonSets) (ctx : Context)
    (daemonSet : Option DaemonSetApplyConfiguration) (opts : ApplyOptions) (s : σ) :
    ApplyOutcome σ :=
  match daemonSet with
  | none =>
    .returned { result := none, err := some "daemonSet provided to Apply must not be nil",
                calls := [], state := s }
  | some ds =>
    let patchOpts := env.ToPatchOptions opts
    match env.jsonMarshal ds with
    | .error e => .returned { result := none, err := some e, calls := [], state := s }
    | .ok data =>
      match ds.ObjectMetaApplyConfiguration with
      | none => .panic "runtime error: invalid memory address or nil pointer dereference" s
      | some om =>
        match om.Name with
        | none =>
          .returned { result := none, err := some "daemonSet.Name must be provided to Apply",
                      calls := [], state := s }
        | some name =>
          let req := c.applyRequest name [] patchOpts data
          let r := env.DoInto ctx req {} s
          .returned { result := some r.1.1, err := r.1.2, calls := [req], state := r.2 }

/-- The method `daemonSets.ApplyStatus`: as `Apply`, with `SubResource("status")`. -/
def daemonSets.ApplyStatus {σ : Type} (env : ApplyEnv σ) (c : daemonSets) (ctx : Context)
    (daemonSet : Option DaemonSetApplyConfiguration) (opts : ApplyOptions) (s : σ) :
    ApplyOutcome σ :=
  match daemonSet with
  | none =>
    .returned { result := none, err := some "daemonSet provided to Apply must not be nil",
                calls := [], state := s }
  | some ds =>
    let patchOpts := env.ToPatchOptions opts
    match env.jsonMarshal ds with
    | .error e => .returned { result := none, err := some e, calls := [], state := s }
    | .ok data =>
      match ds.ObjectMetaApplyConfiguration with
      | none => .panic "runtime error: invalid memory address or nil pointer dereference" s
      | some om =>
        match om.Name with
        | none =>
          .returned { result := none, err := some "daemonSet.Name must be provided to Apply",
                      calls := [], state := s }
        | some name =>
          let req := c.applyRequest name ["status"] patchOpts data
          let r := env.DoInto ctx req {} s
          .returned { result := some r.1.1, err := r.1.2, calls := [req], state := r.2 }

/-! ## Observations on traces -/

/-- The two retrieval steps a `List` body can make. -/
inductive Retrieval where
  | watchList
  | list
  deriving DecidableEq, Repr

/-- The retrieval steps of a trace, in order. -/
def retrievals {σ : Type} : List (Step σ) → List Retrieval
  | [] => []
  | .watchList _ _ _ :: t => .watchList :: retrievals t
  | .list _ _ _ :: t => .list :: retrievals t
  | _ :: t => retrievals t

/-! ## Collaborators outside `daemonset.go`, modelled from the specification -/

/-- Modelled from the spec: the Watch Event of §3, a tagged variant over Added, Modified,
Deleted (each with an object), Bookmark (a resource version plus the optional
"initial state now complete" annotation) and Error (a status). The type is declared in
`k8s.io/apimachinery/pkg/watch`. -/
inductive WatchEvent where
  | Added (obj : DaemonSet)
  | Modified (obj : DaemonSet)
  | Deleted (obj : DaemonSet)
  | Bookmark (resourceVersion : String) (initialEventsEnd : Bool)
  | Error (status : String)
  deriving DecidableEq, Repr

/-- Whether an event is an Error event. -/
def WatchEvent.isError : WatchEvent → Bool
  | .Error _ => true
  | _ => false

/-- Whether an event is a Bookmark carrying the "initial state complete" annotation. -/
def WatchEvent.isComplete : WatchEvent → Bool
  | .Bookmark _ true => true
  | _ => false

/-- Modelled from the spec: §4.2 "upsert the item by identity, retaining the latest payload";
the accumulating mapping is kept as a list with one entry per identity. -/
def upsert (acc : List DaemonSet) (obj : DaemonSet) : List DaemonSet :=
  if acc.any (fun x => decide (x.Name = obj.Name)) then
    acc.map (fun x => if x.Name = obj.Name then obj else x)
  else acc ++ [obj]

/-- Modelled from the spec: §4.2 "remove the item by identity". -/
def remove (acc : List DaemonSet) (obj : DaemonSet) : List DaemonSet :=
  acc.filter (fun x => decide (x.Name ≠ obj.Name))

/-- Modelled from the spec: the Stream-to-Snapshot Assembler of §4.2, which is
`rest.Request.WatchList` in `k8s.io/client-go/rest`. Added and Modified upsert, Deleted
removes, the Bookmark with the completion annotation freezes the accumulation and stops,
an Error event or the end of the stream fails; a Bookmark without the annotation is not a
qualifying one and is passed over. -/
def assemble : List DaemonSet → List WatchEvent → Except Err DaemonSetList
  | _, [] => .error "watch stream ended before the initial state was complete"
  | acc, .Added obj :: rest => assemble (upsert acc obj) rest
  | acc, .Modified obj :: rest => assemble (upsert acc obj) rest
  | acc, .Deleted obj :: rest => assemble (remove acc obj) rest
  | acc, .Bookmark rv true :: _ => .ok { ResourceVersion := rv, Items := acc }
  | acc, .Bookmark _ false :: rest => assemble acc rest
  | _, .Error status :: _ => .error ("watch stream incomplete: " ++ status)

/-- The effect of one pre-completion event on the accumulation, as the claim words it. -/
def applyEvent (acc : List DaemonSet) : WatchEvent → List DaemonSet
  | .Added obj => upsert acc obj
  | .Modified obj => upsert acc obj
  | .Deleted obj => remove acc obj
  | _ => acc

/-- The fold of a sequence of events, starting from the empty accumulation. -/
def foldEvents (events : List WatchEvent) : List DaemonSet :=
  events.foldl applyEvent []

/-- Modelled from the spec: the process-wide configuration of §5 and §9, read-only: the
feature toggle, the two detection toggles, and which query options are compatible with
streaming (§3 invariant; the spec does not list them). -/
structure Config where
  WatchListClient : Bool
  watchListDetection : Bool
  listDetection : Bool
  compatible : ListOptions → Bool

/-- Modelled from the spec: the Capability Negotiator of §4.1, which is
`watchlist.PrepareWatchListOptionsFromListOptions` in `k8s.io/client-go/util/watchlist`.
It forces bookmark delivery on, initial-state population on and resource-version-match to
"not older than", preserves selectors and timeout, and never fails. -/
def negotiate (cfg : Config) (opts : ListOptions) : Prepared :=
  if cfg.WatchListClient && cfg.compatible opts then
    { watchListOptions :=
        { opts with AllowWatchBookmarks := true, SendInitialEvents := true,
                    ResourceVersionMatch := .NotOlderThan },
      hasWatchListOptionsPrepared := true, watchListOptionsErr := none }
  else
    { watchListOptions := opts, hasWatchListOptionsPrepared := false,
      watchListOptionsErr := none }

/-- Joins query parameters with an ampersand. -/
def joinAmp : List String → String
  | [] => ""
  | [a] => a
  | a :: b :: rest => a ++ "&" ++ joinAmp (b :: rest)

/-- Modelled from the spec: the query-string contract of §6 (`VersionedParams` with the
parameter codec, in `k8s.io/client-go/rest`). Parameters are ordered by key, and a
parameter that is unset is left out, as in the two strings of §6 and of
`test/e2e/apimachinery/watchlist.go`. -/
def rawQuery (opts : ListOptions) : String :=
  joinAmp (
    (if opts.AllowWatchBookmarks then ["allowWatchBookmarks=true"] else []) ++
    (if opts.FieldSelector = "" then [] else ["fieldSelector=" ++ opts.FieldSelector]) ++
    (if opts.LabelSelector = "" then [] else ["labelSelector=" ++ opts.LabelSelector]) ++
    (if opts.ResourceVersion = "" then [] else ["resourceVersion=" ++ opts.ResourceVersion]) ++
    (match opts.ResourceVersionMatch with
      | .unset => []
      | .Exact => ["resourceVersionMatch=Exact"]
      | .NotOlderThan => ["resourceVersionMatch=NotOlderThan"]) ++
    (if opts.SendInitialEvents then ["sendInitialEvents=true"] else []) ++
    (match opts.TimeoutSeconds with
      | none => []
      | some t => ["timeoutSeconds=" ++ toString t]) ++
    (if opts.Watch then ["watch=true"] else []))

/-- The raw query of a request: that of its list options (patch options are not modelled). -/
def Request.rawQuery (req : Request) : String :=
  match req.params with
  | .list opts => K8s.rawQuery opts
  | _ => ""

/-- Modelled from the spec: what is observable of one client, the raw query of every
request sent, in order (what the round-tripper of the e2e test records), and the fatal
signals raised by the detector (§4.4). -/
structure World where
  requests : List String := []
  fatal : List String := []
  deriving DecidableEq, Repr

/-- Modelled from the spec: the transport collaborator of §6, `performSnapshotRequest` and
`openWatchStream`; what the server answers may depend on what has been sent so far. -/
structure Server where
  performSnapshotRequest : Request → World → Except Err DaemonSetList
  openWatchStream : Request → World → Except Err (List WatchEvent)

/-- Modelled from the spec: the stream-opening request is the request with the watch flag
set (§6: the streaming attempt sets `watch=true`; the builder chain of `watchList` does
not, and §4.1 does not list it among what the negotiator forces). -/
def Request.withWatch (req : Request) : Request :=
  match req.params with
  | .list opts => { req with params := .list { opts with Watch := true } }
  | _ => req

/-- Modelled from the spec: `Do(ctx).Into(obj)` over the transport of §6, one round trip;
on an error the object is left as it was. -/
def snapshotInto (srv : Server) (_ctx : Context) (req : Request) (obj : DaemonSetList)
    (w : World) : (DaemonSetList × Option Err) × World :=
  let w1 := { w with requests := w.requests ++ [req.rawQuery] }
  match srv.performSnapshotRequest req w with
  | .ok snap => ((snap, none), w1)
  | .error e => ((obj, some e), w1)

/-- Modelled from the spec: `WatchList(ctx).Into(obj)`, the streaming attempt of §4.2 over
`openWatchStream`; on any failure the partial accumulation is discarded and the object is
left as it was. -/
def watchListInto (srv : Server) (_ctx : Context) (req : Request) (obj : DaemonSetList)
    (w : World) : (DaemonSetList × Option Err) × World :=
  let w1 := { w with requests := w.requests ++ [req.withWatch.rawQuery] }
  match srv.openWatchStream req.withWatch w with
  | .error e => ((obj, some e), w1)
  | .ok events =>
    match assemble [] events with
    | .ok snap => ((snap, none), w1)
    | .error e => ((obj, some e), w1)

/-- Modelled from the spec: equality of two item sets, "order-independent, structural
equality per item" (§4.4). -/
def sameItems (a b : List DaemonSet) : Bool :=
  a.all (fun x => b.contains x) && b.all (fun x => a.contains x)

/-- Modelled from the spec: the Consistency Detector of §4.4
(`k8s.io/client-go/util/consistencydetector`). Disabled: no-op. Enabled: one fetch through
the given callable, pinned to the snapshot's resource version with an exact match, then
the item sets are compared and a difference raises the fatal signal. -/
def checkDataConsistency (enabled : Bool) (ctx : Context) (identity : String)
    (listFn : ListFn World) (opts : ListOptions) (result : Option DaemonSetList)
    (w : World) : World :=
  if enabled then
    match result with
    | none => w
    | some snap =>
      let r := listFn ctx { opts with ResourceVersion := snap.ResourceVersion,
                                      ResourceVersionMatch := .Exact } w
      match r.err, r.result with
      | none, some auth =>
        if sameItems snap.Items auth.Items then r.state
        else { r.state with fatal := r.state.fatal ++ [identity] }
      | _, _ => r.state
  else w

/-- The collaborators as the specification describes them, over a given server. -/
def specEnv (cfg : Config) (srv : Server) : Env World :=
  { PrepareWatchListOptionsFromListOptions := negotiate cfg
    DoIntoList := snapshotInto srv
    WatchListInto := watchListInto srv
    CheckWatchListFromCacheDataConsistencyIfRequested :=
      checkDataConsistency cfg.watchListDetection
    CheckListFromCacheDataConsistencyIfRequested := checkDataConsistency cfg.listDetection }

/-! ## Scripted collaborators for concrete runs -/

/-- A scripted environment over a call counter: fixed answers for option preparation, the
streaming attempt and the plain list request; every transport call advances the counter
and the detectors do nothing. -/
def scriptEnv (prep : Prepared) (watchOut listOut : DaemonSetList × Option Err) : Env Nat :=
  { PrepareWatchListOptionsFromListOptions := fun _ => prep
    DoIntoList := fun _ _ _ n => (listOut, n + 1)
    WatchListInto := fun _ _ _ n => (watchOut, n + 1)
    CheckWatchListFromCacheDataConsistencyIfRequested := fun _ _ _ _ _ n => n
    CheckListFromCacheDataConsistencyIfRequested := fun _ _ _ _ _ n => n }

/-- Streaming options as a negotiator would rewrite the empty options. -/
def streamingOptions : ListOptions :=
  { AllowWatchBookmarks := true, SendInitialEvents := true, ResourceVersionMatch := .NotOlderThan }

/-- A snapshot with one item at resource version 5. -/
def oneItem : DaemonSetList := { ResourceVersion := "5", Items := [{ Name := "a" }] }

/-- A snapshot with two items at resource version 9. -/
def twoItems : DaemonSetList :=
  { ResourceVersion := "9", Items := [{ Name := "a" }, { Name := "b" }] }

/-- Modelled from the spec: the transport collaborator of §1 and §6
(`k8s.io/client-go/rest`, not under src/), as far as `Apply` can observe it, over the list
of requests put on the wire. The spec leaves the validation done by the request builder
open; kept of it is the guard of `Name`, which refuses an empty resource name with
"resource name may not be empty", after which `Do` returns that error without a round
trip and `Into` leaves the object as it was. `respond` is the answer to a request that is
sent. -/
def restClient (toPatchOptions : ApplyOptions → PatchOptions)
    (marshal : DaemonSetApplyConfiguration → Except Err String)
    (respond : Request → DaemonSet × Option Err) : ApplyEnv (List Request) :=
  { ToPatchOptions := toPatchOptions
    jsonMarshal := marshal
    DoInto := fun _ req obj wire =>
      if req.name = some "" then ((obj, some "resource name may not be empty"), wire)
      else (respond req, wire ++ [req]) }

/-- The contract of one call of `Apply` (`sub = []`) or `ApplyStatus` (`sub = ["status"]`)
on a configuration that is nil, fails to marshal, or carries metadata. A request is
handed to the REST client exactly when the configuration is non-nil, marshals and has a
name; it is then the one PATCH request built from them, and the result object, the error
and the state are what the client's `Do(ctx).Into(result)` left. Otherwise the call
returns a nil result and the error of the first failing check, hands nothing to the
client and leaves the state untouched. -/
def ApplyContract {σ : Type} (env : ApplyEnv σ) (c : daemonSets) (ctx : Context)
    (daemonSet : Option DaemonSetApplyConfiguration) (opts : ApplyOptions) (s : σ)
    (sub : List String) (out : ApplyOutcome σ) : Prop :=
  ((∃ run, out = .returned run ∧ run.calls ≠ []) ↔
    ∃ ds data om name, daemonSet = some ds ∧ env.jsonMarshal ds = .ok data ∧
      ds.ObjectMetaApplyConfiguration = some om ∧ om.Name = some name) ∧
  (∀ ds data om name, daemonSet = some ds → env.jsonMarshal ds = .ok data →
    ds.ObjectMetaApplyConfiguration = some om → om.Name = some name →
    (c.applyRequest name sub (env.ToPatchOptions opts) data).verb = Verb.PATCH ∧
    (c.applyRequest name sub (env.ToPatchOptions opts) data).patchType =
      some PatchType.ApplyPatchType ∧
    (c.applyRequest name sub (env.ToPatchOptions opts) data).name = some name ∧
    (c.applyRequest name sub (env.ToPatchOptions opts) data).subresource = sub ∧
    (c.applyRequest name sub (env.ToPatchOptions opts) data).body = some data ∧
    out = .returned
      { result := some (env.DoInto ctx
          (c.applyRequest name sub (env.ToPatchOptions opts) data) {} s).1.1,
        err := (env.DoInto ctx
          (c.applyRequest name sub (env.ToPatchOptions opts) data) {} s).1.2,
        calls := [c.applyRequest name sub (env.ToPatchOptions opts) data],
        state := (env.DoInto ctx
          (c.applyRequest name sub (env.ToPatchOptions opts) data) {} s).2 }) ∧
  (daemonSet = none →
    out = .returned { result := none,
                      err := some "daemonSet provided to Apply must not be nil",
                      calls := [], state := s }) ∧
  (∀ ds e, daemonSet = some ds → env.jsonMarshal ds = .error e →
    out = .returned { result := none, err := some e, calls := [], state := s }) ∧
  (∀ ds data om, daemonSet = some ds → env.jsonMarshal ds = .ok data →
    ds.ObjectMetaApplyConfiguration = some om → om.Name = none →
    out = .returned { result := none,
                      err := some "daemonSet.Name must be provided to Apply",
                      calls := [], state := s })

/-- A configuration whose metadata carries the given name. -/
def namedConfiguration (name : String) : DaemonSetApplyConfiguration :=
  { ObjectMetaApplyConfiguration := some { Name := some name } }

/-- A REST client whose patch options and marshalling keep the uninterpreted payloads and
whose server answers every request it receives with an object named "applied". -/
def echoClient : ApplyEnv (List Request) :=
  restClient (fun o => { raw := o.raw }) (fun ds => .ok ds.Payload)
    (fun _ => ({ Name := "applied" }, none))

/-- The item of an accumulation with a given identity, if any. -/
def lookup (name : String) : List DaemonSet → Option DaemonSet
  | [] => none
  | x :: t => if x.Name = name then some x else lookup name t

/-- What a sequence of events leaves of the item with a given identity, starting from
`init`: the payload of the last Added or Modified event for it, nothing after a Deleted. -/
def latest (name : String) (init : Option DaemonSet) (events : List WatchEvent) :
    Option DaemonSet :=
  events.foldl (fun cur e =>
    match e with
    | .Added obj => if obj.Name = name then some obj else cur
    | .Modified obj => if obj.Name = name then some obj else cur
    | .Deleted obj => if obj.Name = name then none else cur
    | _ => cur) init

/-- A server whose watch stream replays a given event sequence and whose snapshot request
answers with a given snapshot or error. -/
def replayServer (events : List WatchEvent) (snapshot : Except Err DaemonSetList) : Server :=
  { performSnapshotRequest := fun _ _ => snapshot
    openWatchStream := fun _ _ => .ok events }

/-- A configuration with streaming enabled for every option value and both detections on or
off together. -/
def allStreaming (detection : Bool) : Config :=
  { WatchListClient := true, watchListDetection := detection, listDetection := detection,
    compatible := fun _ => true }

/-- The raw query of the streaming request for empty caller options (§6). -/
def streamingQuery : String :=
  "allowWatchBookmarks=true&resourceVersionMatch=NotOlderThan&sendInitialEvents=true&watch=true"

/-- The options of the consistency-check fetch for empty caller options: pinned to a
resource version with an exact match. -/
def pinnedOptions (rv : String) : ListOptions :=
  { ResourceVersion := rv, ResourceVersionMatch := .Exact }

/-! ## Detector invocations and timeouts -/

/-- The two consistency detectors, with the label each was invoked with. -/
inductive Detection where
  | watchList (identity : String)
  | list (identity : String)
  deriving DecidableEq, Repr

/-- The detector invocations of a trace, in order. -/
def detections {σ : Type} : List (Step σ) → List Detection
  | [] => []
  | .checkWatchList identity _ _ _ :: t => .watchList identity :: detections t
  | .checkList identity _ _ _ :: t => .list identity :: detections t
  | _ :: t => detections t

/-- A transport that records, in order, the timeout of every request handed to
`Do(ctx).Into` or `WatchList(ctx).Into`, and answers without error. -/
def timeoutProbe : Env (List Int) :=
  { PrepareWatchListOptionsFromListOptions := fun o => ⟨o, false, none⟩
    DoIntoList := fun _ req obj s => ((obj, none), s ++ [req.timeout])
    WatchListInto := fun _ req obj s => ((obj, none), s ++ [req.timeout])
    CheckWatchListFromCacheDataConsistencyIfRequested := fun _ _ _ _ _ s => s
    CheckListFromCacheDataConsistencyIfRequested := fun _ _ _ _ _ s => s }

/-- The detector contract of one run of `List` started in state `s`: on success there is
exactly one detector invocation, it is the last step, it follows the retrieval step that
produced the result, it is the watch-list detector after a streaming result and the list
detector after a plain list result, and the state the run leaves is that detector's,
applied to the state the retrieval left; on an error there is none and the state is the
one the plain list request left. -/
def DetectorContract {σ : Type} (env : Env σ) (c : daemonSets) (ctx : Context)
    (opts : ListOptions) (s : σ) (run : ListRun σ) : Prop :=
  (run.err = none →
    ((retrievals run.trace).getLast? = some Retrieval.watchList ∧
      detections run.trace = [Detection.watchList "watchlist request for daemonsets"] ∧
      (∃ pre o, run.trace = pre ++
        [Step.watchList o run.result none,
         Step.checkWatchList "watchlist request for daemonsets" (daemonSets.list env c) opts
           run.result]) ∧
      run.state = env.CheckWatchListFromCacheDataConsistencyIfRequested ctx
        "watchlist request for daemonsets" (daemonSets.list env c) opts run.result
        (daemonSets.watchList env c ctx
          (env.PrepareWatchListOptionsFromListOptions opts).watchListOptions s).state) ∨
    ((retrievals run.trace).getLast? = some Retrieval.list ∧
      detections run.trace = [Detection.list "list request for daemonsets"] ∧
      (∃ pre, run.trace = pre ++
        [Step.list opts run.result none,
         Step.checkList "list request for daemonsets" (daemonSets.list env c) opts
           run.result]) ∧
      ∃ s0, (daemonSets.list env c ctx opts s0).result = run.result ∧
        (daemonSets.list env c ctx opts s0).err = none ∧
        run.state = env.CheckListFromCacheDataConsistencyIfRequested ctx
          "list request for daemonsets" (daemonSets.list env c) opts run.result
          (daemonSets.list env c ctx opts s0).state)) ∧
  (run.err ≠ none →
    detections run.trace = [] ∧
    ∃ s0, run.state = (daemonSets.list env c ctx opts s0).state)

/-- The state that lines 100-104 of `List` leave when they start in `s0`: the one of the
plain list request, then of the list detector when the request succeeded. -/
def stateAfterList {σ : Type} (env : Env σ) (c : daemonSets) (ctx : Context)
    (opts : ListOptions) (s0 : σ) : σ :=
  match (daemonSets.list env c ctx opts s0).err with
  | none =>
    env.CheckListFromCacheDataConsistencyIfRequested ctx "list request for daemonsets"
      (daemonSets.list env c) opts (daemonSets.list env c ctx opts s0).result
      (daemonSets.list env c ctx opts s0).state
  | some _ => (daemonSets.list env c ctx opts s0).state

/-! ## The `podMetricses` client (metrics/v1alpha1)

A shallow embedding of `List`, `list` and `watchList` of
`staging/src/k8s.io/metrics/pkg/client/clientset/versioned/typed/metrics/v1alpha1/podmetrics.go`,
over its own list type and its own collaborators (its REST client and parameter codec
belong to `PodEnv`). -/

/-- One `v1alpha1.PodMetrics` (declared in `k8s.io/metrics`): its identity and an
uninterpreted payload. -/
structure PodMetrics where
  Name : String := ""
  Payload : String := ""
  deriving DecidableEq, Repr

/-- The list type `v1alpha1.PodMetricsList`: items plus one resource version. -/
structure PodMetricsList where
  ResourceVersion : String := ""
  Items : List PodMetrics := []
  deriving DecidableEq, Repr

/-- The receiver `podMetricses`: its namespace (the REST client is in `PodEnv`). -/
structure podMetricses where
  ns : String
  deriving DecidableEq, Repr

/-- What a `(*PodMetricsList, error)` call leaves behind: the pair and the new state. -/
structure PodListRet (τ : Type) where
  result : Option PodMetricsList
  err : Option Err
  state : τ

/-- The callable type of `podMetricses.list`, as handed to the consistency detectors. -/
abbrev PodListFn (τ : Type) := Context → ListOptions → τ → PodListRet τ

/-- The collaborators of `podMetricses.List`, `list` and `watchList`, none of which is
defined in `podmetrics.go`; the fields are those of `Env`, over `PodMetricsList`. -/
structure PodEnv (τ : Type) where
  PrepareWatchListOptionsFromListOptions : ListOptions → Prepared
  DoIntoList : Context → Request → PodMetricsList → τ → (PodMetricsList × Option Err) × τ
  WatchListInto : Context → Request → PodMetricsList → τ → (PodMetricsList × Option Err) × τ
  CheckWatchListFromCacheDataConsistencyIfRequested :
    Context → String → PodListFn τ → ListOptions → Option PodMetricsList → τ → τ
  CheckListFromCacheDataConsistencyIfRequested :
    Context → String → PodListFn τ → ListOptions → Option PodMetricsList → τ → τ

/-- A call made by the body of `podMetricses.List`, with what it was given and returned. -/
inductive PodStep (τ : Type) where
  | prepare (opts : ListOptions) (out : Prepared)
  | warning (msg : String)
  | watchList (opts : ListOptions) (result : Option PodMetricsList) (err : Option Err)
  | list (opts : ListOptions) (result : Option PodMetricsList) (err : Option Err)
  | checkWatchList (identity : String) (listFn : PodListFn τ) (opts : ListOptions)
      (result : Option PodMetricsList)
  | checkList (identity : String) (listFn : PodListFn τ) (opts : ListOptions)
      (result : Option PodMetricsList)

/-- What a call of `podMetricses.List` leaves behind. -/
structure PodListRun (τ : Type) where
  result : Option PodMetricsList
  err : Option Err
  trace : List (PodStep τ)
  state : τ

/-- The request built by `podMetricses.list` and `podMetricses.watchList`:
`c.client.Get().Namespace(c.ns).Resource("pods").VersionedParams(&opts, ...).Timeout(timeout)`,
with the same timeout computation as in `daemonset.go`. -/
def podMetricses.listRequest (c : podMetricses) (opts : ListOptions) : Request :=
  { verb := .GET, ns := c.ns, resource := "pods", params := .list opts,
    timeout := timeoutOf opts }

/-- The method `podMetricses.list`: `result = &PodMetricsList{}` then `Do(ctx).Into(result)`. -/
def podMetricses.list {τ : Type} (env : PodEnv τ) (c : podMetricses) : PodListFn τ :=
  fun ctx opts s =>
    let r := env.DoIntoList ctx (c.listRequest opts) {} s
    { result := some r.1.1, err := r.1.2, state := r.2 }

/-- The method `podMetricses.watchList`: `result = &PodMetricsList{}` then
`WatchList(ctx).Into(result)`. -/
def podMetricses.watchList {τ : Type} (env : PodEnv τ) (c : podMetricses) : PodListFn τ :=
  fun ctx opts s =>
    let r := env.WatchListInto ctx (c.listRequest opts) {} s
    { result := some r.1.1, err := r.1.2, state := r.2 }

/-- The last five lines of `podMetricses.List`, reached from three places: the plain list
request and, when it succeeds, the list detector. -/
def podMetricses.ListTail {τ : Type} (env : PodEnv τ) (c : podMetricses) (ctx : Context)
    (opts : ListOptions) (trace : List (PodStep τ)) (s : τ) : PodListRun τ :=
  let r := podMetricses.list env c ctx opts s
  match r.err with
  | none =>
    { result := r.result, err := r.err,
      trace := trace ++ [.list opts r.result r.err,
        .checkList "list request for pods" (podMetricses.list env c) opts r.result],
      state := env.CheckListFromCacheDataConsistencyIfRequested ctx
        "list request for pods" (podMetricses.list env c) opts r.result r.state }
  | some _ =>
    { result := r.result, err := r.err,
      trace := trace ++ [.list opts r.result r.err], state := r.state }

/-- The method `podMetricses.List`. -/
def podMetricses.List {τ : Type} (env : PodEnv τ) (c : podMetricses) (ctx : Context)
    (opts : ListOptions) (s : τ) : PodListRun τ :=
  let p := env.PrepareWatchListOptionsFromListOptions opts
  match p.watchListOptionsErr with
  | some e =>
    podMetricses.ListTail env c ctx opts
      [.prepare opts p,
       .warning ("Failed preparing watchlist options for pods, falling back to the standard LIST semantics, err = " ++ e)]
      s
  | none =>
    if p.hasWatchListOptionsPrepared then
      let w := podMetricses.watchList env c ctx p.watchListOptions s
      match w.err with
      | none =>
        { result := w.result, err := none,
          trace := [.prepare opts p, .watchList p.watchListOptions w.result w.err,
            .checkWatchList "watchlist request for pods" (podMetricses.list env c) opts
              w.result],
          state := env.CheckWatchListFromCacheDataConsistencyIfRequested ctx
            "watchlist request for pods" (podMetricses.list env c) opts w.result w.state }
      | some e =>
        podMetricses.ListTail env c ctx opts
          [.prepare opts p, .watchList p.watchListOptions w.result w.err,
           .warning ("The watchlist request for pods ended with an error, falling back to the standard LIST semantics, err = " ++ e)]
          w.state
    else
      podMetricses.ListTail env c ctx opts [.prepare opts p] s

/-! ## Correspondence between the two clients -/

/-- The retrieval steps of a `podMetricses` trace, in order. -/
def podRetrievals {τ : Type} : List (PodStep τ) → List Retrieval
  | [] => []
  | .watchList _ _ _ :: t => .watchList :: podRetrievals t
  | .list _ _ _ :: t => .list :: podRetrievals t
  | _ :: t => podRetrievals t

/-- Two texts that differ only in the resource name: "daemonsets" in the first where "pods"
is in the second. -/
def Renamed (a b : String) : Prop :=
  ∃ pre post, a = pre ++ "daemonsets" ++ post ∧ b = pre ++ "pods" ++ post

/-- Two optional values correspond: both nil, or both set and related. -/
def optRel {α β : Type} (R : α → β → Prop) : Option α → Option β → Prop
  | some a, some b => R a b
  | none, none => True
  | _, _ => False

/-- Two `(list, error)` outcomes are the same: equal errors, corresponding lists,
corresponding states. -/
def retRel {σ τ : Type} (Rs : σ → τ → Prop) (Rl : DaemonSetList → PodMetricsList → Prop)
    (r : ListRet σ) (r' : PodListRet τ) : Prop :=
  r.err = r'.err ∧ optRel Rl r.result r'.result ∧ Rs r.state r'.state

/-- Two list callables have the same outcomes whenever they start from corresponding
states. -/
def fnRel {σ τ : Type} (Rs : σ → τ → Prop) (Rl : DaemonSetList → PodMetricsList → Prop)
    (f : ListFn σ) (g : PodListFn τ) : Prop :=
  ∀ ctx o s t, Rs s t → retRel Rs Rl (f ctx o s) (g ctx o t)

/-- Two steps are the same call with the same arguments: same kind, same options, same
error, corresponding lists and callables, texts differing only in the resource name. -/
inductive StepRel {σ τ : Type} (Rs : σ → τ → Prop)
    (Rl : DaemonSetList → PodMetricsList → Prop) : Step σ → PodStep τ → Prop
  | prepare (o : ListOptions) (p : Prepared) : StepRel Rs Rl (.prepare o p) (.prepare o p)
  | warning (a b : String) : Renamed a b → StepRel Rs Rl (.warning a) (.warning b)
  | watchList (o : ListOptions) (r : Option DaemonSetList) (r' : Option PodMetricsList)
      (e : Option Err) : optRel Rl r r' → StepRel Rs Rl (.watchList o r e) (.watchList o r' e)
  | list (o : ListOptions) (r : Option DaemonSetList) (r' : Option PodMetricsList)
      (e : Option Err) : optRel Rl r r' → StepRel Rs Rl (.list o r e) (.list o r' e)
  | checkWatchList (a b : String) (f : ListFn σ) (g : PodListFn τ) (o : ListOptions)
      (r : Option DaemonSetList) (r' : Option PodMetricsList) :
      Renamed a b → fnRel Rs Rl f g → optRel Rl r r' →
      StepRel Rs Rl (.checkWatchList a f o r) (.checkWatchList b g o r')
  | checkList (a b : String) (f : ListFn σ) (g : PodListFn τ) (o : ListOptions)
      (r : Option DaemonSetList) (r' : Option PodMetricsList) :
      Renamed a b → fnRel Rs Rl f g → optRel Rl r r' →
      StepRel Rs Rl (.checkList a f o r) (.checkList b g o r')

/-- Two runs of `List` are the same: equal errors, corresponding results and states, the
same path, and step by step the same calls with the same arguments. -/
def runRel {σ τ : Type} (Rs : σ → τ → Prop) (Rl : DaemonSetList → PodMetricsList → Prop)
    (r : ListRun σ) (r' : PodListRun τ) : Prop :=
  r.err = r'.err ∧ optRel Rl r.result r'.result ∧ Rs r.state r'.state ∧
  retrievals r.trace = podRetrievals r'.trace ∧
  List.Forall₂ (StepRel Rs Rl) r.trace r'.trace

/-- A scripted `podMetricses` environment over a call counter, as `scriptEnv`. -/
def podScriptEnv (prep : Prepared) (watchOut listOut : PodMetricsList × Option Err) :
    PodEnv Nat :=
  { PrepareWatchListOptionsFromListOptions := fun _ => prep
    DoIntoList := fun _ _ _ n => (listOut, n + 1)
    WatchListInto := fun _ _ _ n => (watchOut, n + 1)
    CheckWatchListFromCacheDataConsistencyIfRequested := fun _ _ _ _ _ n => n
    CheckListFromCacheDataConsistencyIfRequested := fun _ _ _ _ _ n => n }

/-- Two lists correspond when they carry the same resource version and the same item
names in the same order. -/
def sameShape (d : DaemonSetList) (p : PodMetricsList) : Prop :=
  d.ResourceVersion = p.ResourceVersion ∧
  d.Items.map (fun x => x.Name) = p.Items.map (fun x => x.Name)

/-- A `PodMetricsList` with one item at resource version 5, the counterpart of `oneItem`. -/
def onePodItem : PodMetricsList := { ResourceVersion := "5", Items := [{ Name := "a" }] }

/-! ## The retrieval orchestrator `daemonSets.List` -/

theorem ListTail_result {σ : Type} (env : Env σ) (c : daemonSets) (ctx : Context)
    (opts : ListOptions) (t : List (Step σ)) (s : σ) :
    (daemonSets.ListTail env c ctx opts t s).result = (daemonSets.list env c ctx opts s).result := by
  cases h : (daemonSets.list env c ctx opts s).err <;> simp [daemonSets.ListTail, h]

theorem ListTail_err {σ : Type} (env : Env σ) (c : daemonSets) (ctx : Context)
    (opts : ListOptions) (t : List (Step σ)) (s : σ) :
    (daemonSets.ListTail env c ctx opts t s).err = (daemonSets.list env c ctx opts s).err := by
  cases h : (daemonSets.list env c ctx opts s).err <;> simp [daemonSets.ListTail, h]

theorem ListTail_trace {σ : Type} (env : Env σ) (c : daemonSets) (ctx : Context)
    (opts : ListOptions) (t : List (Step σ)) (s : σ) :
    (daemonSets.ListTail env c ctx opts t s).trace =
      t ++ Step.list opts (daemonSets.list env c ctx opts s).result
              (daemonSets.list env c ctx opts s).err ::
        (match (daemonSets.list env c ctx opts s).err with
         | none => [Step.checkList "list request for daemonsets" (daemonSets.list env c) opts
                      (daemonSets.list env c ctx opts s).result]
         | some _ => []) := by
  cases h : (daemonSets.list env c ctx opts s).err <;> simp [daemonSets.ListTail, h]

/-- C1: when option preparation succeeds and indicates streaming but the streaming attempt
ends with an error, `List` returns exactly the pair that the plain list request `c.list`
returns for the caller's own options (issued in the state the attempt left behind), and
that request is recorded with the original, not the rewritten, options. -/
theorem List_falls_back_on_watchList_error {σ : Type} (env : Env σ) (c : daemonSets)
    (ctx : Context) (opts : ListOptions) (s : σ)
    (hprep : (env.PrepareWatchListOptionsFromListOptions opts).watchListOptionsErr = none)
    (hhas : (env.PrepareWatchListOptionsFromListOptions opts).hasWatchListOptionsPrepared = true)
    (hwl : (daemonSets.watchList env c ctx
              (env.PrepareWatchListOptionsFromListOptions opts).watchListOptions s).err ≠ none) :
    (daemonSets.List env c ctx opts s).result =
        (daemonSets.list env c ctx opts
          (daemonSets.watchList env c ctx
            (env.PrepareWatchListOptionsFromListOptions opts).watchListOptions s).state).result ∧
    (daemonSets.List env c ctx opts s).err =
        (daemonSets.list env c ctx opts
          (daemonSets.watchList env c ctx
            (env.PrepareWatchListOptionsFromListOptions opts).watchListOptions s).state).err ∧
    Step.list opts (daemonSets.List env c ctx opts s).result (daemonSets.List env c ctx opts s).err
      ∈ (daemonSets.List env c ctx opts s).trace := by
  cases h : (daemonSets.watchList env c ctx
      (env.PrepareWatchListOptionsFromListOptions opts).watchListOptions s).err with
  | none => exact absurd h hwl
  | some e =>
    simp [daemonSets.List, hprep, hhas, h, ListTail_result, ListTail_err, ListTail_trace]

/-- At a scripted run whose streaming attempt fails with "stream closed" and whose plain
list request yields one item, the fallback result is returned. -/
theorem List_falls_back_on_watchList_error_witness :
    (daemonSets.List (scriptEnv ⟨streamingOptions, true, none⟩ ({}, some "stream closed")
        (oneItem, none)) ⟨"kube-system"⟩ ⟨0⟩ {} 0).result = some oneItem ∧
    (daemonSets.List (scriptEnv ⟨streamingOptions, true, none⟩ ({}, some "stream closed")
        (oneItem, none)) ⟨"kube-system"⟩ ⟨0⟩ {} 0).err = none :=
  ⟨(List_falls_back_on_watchList_error
      (scriptEnv ⟨streamingOptions, true, none⟩ ({}, some "stream closed") (oneItem, none))
      ⟨"kube-system"⟩ ⟨0⟩ {} 0 rfl rfl (by decide)).1,
   (List_falls_back_on_watchList_error
      (scriptEnv ⟨streamingOptions, true, none⟩ ({}, some "stream closed") (oneItem, none))
      ⟨"kube-system"⟩ ⟨0⟩ {} 0 rfl rfl (by decide)).2.1⟩

/-- C2: when option preparation returns an error or reports that nothing was prepared,
`List` makes no streaming attempt (no `watchList` step, and the run does not depend on the
streaming transport at all) and returns exactly what `c.list(ctx, opts)` returns. -/
theorem List_direct_when_not_prepared {σ : Type} (env : Env σ) (c : daemonSets)
    (ctx : Context) (opts : ListOptions) (s : σ)
    (hno : (env.PrepareWatchListOptionsFromListOptions opts).watchListOptionsErr ≠ none ∨
           (env.PrepareWatchListOptionsFromListOptions opts).hasWatchListOptionsPrepared = false) :
    (daemonSets.List env c ctx opts s).result = (daemonSets.list env c ctx opts s).result ∧
    (daemonSets.List env c ctx opts s).err = (daemonSets.list env c ctx opts s).err ∧
    retrievals (daemonSets.List env c ctx opts s).trace = [Retrieval.list] ∧
    (∀ o r e, Step.watchList o r e ∉ (daemonSets.List env c ctx opts s).trace) ∧
    (∀ f, (daemonSets.List { env with WatchListInto := f } c ctx opts s).result =
            (daemonSets.List env c ctx opts s).result ∧
          (daemonSets.List { env with WatchListInto := f } c ctx opts s).err =
            (daemonSets.List env c ctx opts s).err ∧
          (daemonSets.List { env with WatchListInto := f } c ctx opts s).state =
            (daemonSets.List env c ctx opts s).state) := by
  have hl : ∀ f, daemonSets.list { env with WatchListInto := f } c = daemonSets.list env c :=
    fun _ => rfl
  cases hp : (env.PrepareWatchListOptionsFromListOptions opts).watchListOptionsErr with
  | some e =>
    cases hle : (daemonSets.list env c ctx opts s).err <;>
      simp [daemonSets.List, daemonSets.ListTail, hp, hl, hle, retrievals]
  | none =>
    have hh : (env.PrepareWatchListOptionsFromListOptions opts).hasWatchListOptionsPrepared
        = false := by
      rcases hno with h | h
      · exact absurd hp h
      · exact h
    cases hle : (daemonSets.list env c ctx opts s).err <;>
      simp [daemonSets.List, daemonSets.ListTail, hp, hh, hl, hle, retrievals]

/-- At a scripted run whose option preparation fails, the plain list result is returned and
the only retrieval step is the plain list request. -/
theorem List_direct_when_not_prepared_witness :
    (daemonSets.List (scriptEnv ⟨{}, true, some "invalid options"⟩ (twoItems, none)
        (oneItem, none)) ⟨"default"⟩ ⟨1⟩ {} 0).result = some oneItem ∧
    retrievals (daemonSets.List (scriptEnv ⟨{}, true, some "invalid options"⟩ (twoItems, none)
        (oneItem, none)) ⟨"default"⟩ ⟨1⟩ {} 0).trace = [Retrieval.list] :=
  ⟨(List_direct_when_not_prepared
      (scriptEnv ⟨{}, true, some "invalid options"⟩ (twoItems, none) (oneItem, none))
      ⟨"default"⟩ ⟨1⟩ {} 0 (Or.inl (by decide))).1,
   (List_direct_when_not_prepared
      (scriptEnv ⟨{}, true, some "invalid options"⟩ (twoItems, none) (oneItem, none))
      ⟨"default"⟩ ⟨1⟩ {} 0 (Or.inl (by decide))).2.2.1⟩

/-- C3: when option preparation succeeds and indicates streaming and `watchList`, called with
the rewritten options, returns without error, `List` returns that same result with a nil
error, and its only retrieval step is that streaming attempt: no plain list request is
made by `List` itself, and the state it leaves is the watch-list detector's effect on the
state the streaming attempt left. -/
theorem List_returns_watchList_result {σ : Type} (env : Env σ) (c : daemonSets)
    (ctx : Context) (opts : ListOptions) (s : σ)
    (hprep : (env.PrepareWatchListOptionsFromListOptions opts).watchListOptionsErr = none)
    (hhas : (env.PrepareWatchListOptionsFromListOptions opts).hasWatchListOptionsPrepared = true)
    (hwl : (daemonSets.watchList env c ctx
              (env.PrepareWatchListOptionsFromListOptions opts).watchListOptions s).err = none) :
    (daemonSets.List env c ctx opts s).result =
        (daemonSets.watchList env c ctx
          (env.PrepareWatchListOptionsFromListOptions opts).watchListOptions s).result ∧
    (daemonSets.List env c ctx opts s).err = none ∧
    retrievals (daemonSets.List env c ctx opts s).trace = [Retrieval.watchList] ∧
    (∀ o r e, Step.list o r e ∉ (daemonSets.List env c ctx opts s).trace) ∧
    (∀ o r e, Step.watchList o r e ∈ (daemonSets.List env c ctx opts s).trace →
        o = (env.PrepareWatchListOptionsFromListOptions opts).watchListOptions) ∧
    (daemonSets.List env c ctx opts s).state =
      env.CheckWatchListFromCacheDataConsistencyIfRequested ctx
        "watchlist request for daemonsets" (daemonSets.list env c) opts
        (daemonSets.watchList env c ctx
          (env.PrepareWatchListOptionsFromListOptions opts).watchListOptions s).result
        (daemonSets.watchList env c ctx
          (env.PrepareWatchListOptionsFromListOptions opts).watchListOptions s).state := by
  refine ⟨?_, ?_, ?_, ?_, ?_, ?_⟩
  · simp [daemonSets.List, hprep, hhas, hwl]
  · simp [daemonSets.List, hprep, hhas, hwl]
  · simp [daemonSets.List, hprep, hhas, hwl, retrievals]
  · simp [daemonSets.List, hprep, hhas, hwl]
  · simp only [daemonSets.List, hprep, hhas, hwl, if_true]
    intro o r e hmem
    simp at hmem
    exact hmem.1
  · simp [daemonSets.List, hprep, hhas, hwl]

/-- At a scripted run whose streaming attempt yields two items, those are returned. -/
theorem List_returns_watchList_result_witness :
    (daemonSets.List (scriptEnv ⟨streamingOptions, true, none⟩ (twoItems, none)
        (oneItem, none)) ⟨"default"⟩ ⟨2⟩ {} 0).result = some twoItems ∧
    (daemonSets.List (scriptEnv ⟨streamingOptions, true, none⟩ (twoItems, none)
        (oneItem, none)) ⟨"default"⟩ ⟨2⟩ {} 0).err = none :=
  ⟨(List_returns_watchList_result
      (scriptEnv ⟨streamingOptions, true, none⟩ (twoItems, none) (oneItem, none))
      ⟨"default"⟩ ⟨2⟩ {} 0 rfl rfl rfl).1,
   (List_returns_watchList_result
      (scriptEnv ⟨streamingOptions, true, none⟩ (twoItems, none) (oneItem, none))
      ⟨"default"⟩ ⟨2⟩ {} 0 rfl rfl rfl).2.1⟩

/-- C4: `List` returns a non-nil error exactly when its trace holds a plain list request
that returned an error; every plain list request `List` makes carries the caller's options
and its pair is the pair `List` returns; whenever option preparation or the streaming
attempt ended with an error, the plain list request was made, so the error returned (if
any) is the one of `c.list` and never theirs. -/
theorem List_error_is_list_error {σ : Type} (env : Env σ) (c : daemonSets)
    (ctx : Context) (opts : ListOptions) (s : σ) :
    ((daemonSets.List env c ctx opts s).err ≠ none ↔
        ∃ r e, Step.list opts r (some e) ∈ (daemonSets.List env c ctx opts s).trace) ∧
    (∀ o r e, Step.list o r e ∈ (daemonSets.List env c ctx opts s).trace →
        o = opts ∧ (daemonSets.List env c ctx opts s).result = r ∧
        (daemonSets.List env c ctx opts s).err = e ∧
        ∃ s0, (daemonSets.list env c ctx opts s0).result = r ∧
              (daemonSets.list env c ctx opts s0).err = e) ∧
    ((env.PrepareWatchListOptionsFromListOptions opts).watchListOptionsErr ≠ none →
        (daemonSets.List env c ctx opts s).err = (daemonSets.list env c ctx opts s).err) ∧
    (∀ o r e, Step.watchList o r (some e) ∈ (daemonSets.List env c ctx opts s).trace →
        (daemonSets.List env c ctx opts s).err =
          (daemonSets.list env c ctx opts
            (daemonSets.watchList env c ctx
              (env.PrepareWatchListOptionsFromListOptions opts).watchListOptions s).state).err) := by
  cases hp : (env.PrepareWatchListOptionsFromListOptions opts).watchListOptionsErr with
  | some e0 =>
    cases hle : (daemonSets.list env c ctx opts s).err with
    | none =>
      simp [daemonSets.List, hp, hle, ListTail_result, ListTail_err, ListTail_trace]
      intro o r e ho hr he
      subst ho hr he
      exact ⟨rfl, rfl, rfl, s, rfl, hle⟩
    | some e1 =>
      simp [daemonSets.List, hp, hle, ListTail_result, ListTail_err, ListTail_trace]
      intro o r e ho hr he
      subst ho hr he
      exact ⟨rfl, rfl, rfl, s, rfl, hle⟩
  | none =>
    cases hh : (env.PrepareWatchListOptionsFromListOptions opts).hasWatchListOptionsPrepared with
    | false =>
      cases hle : (daemonSets.list env c ctx opts s).err with
      | none =>
        simp [daemonSets.List, hp, hh, hle, ListTail_result, ListTail_err, ListTail_trace]
        intro o r e ho hr he
        subst ho hr he
        exact ⟨rfl, rfl, rfl, s, rfl, hle⟩
      | some e1 =>
        simp [daemonSets.List, hp, hh, hle, ListTail_result, ListTail_err, ListTail_trace]
        intro o r e ho hr he
        subst ho hr he
        exact ⟨rfl, rfl, rfl, s, rfl, hle⟩
    | true =>
      cases hw : (daemonSets.watchList env c ctx
          (env.PrepareWatchListOptionsFromListOptions opts).watchListOptions s).err with
      | none =>
        simp [daemonSets.List, hp, hh, hw]
      | some e2 =>
        cases hle : (daemonSets.list env c ctx opts
            (daemonSets.watchList env c ctx
              (env.PrepareWatchListOptionsFromListOptions opts).watchListOptions s).state).err with
        | none =>
          simp [daemonSets.List, hp, hh, hw, hle, ListTail_result, ListTail_err, ListTail_trace]
          intro o r e ho hr he
          subst ho hr he
          exact ⟨rfl, rfl, rfl, _, rfl, hle⟩
        | some e1 =>
          simp [daemonSets.List, hp, hh, hw, hle, ListTail_result, ListTail_err, ListTail_trace]
          intro o r e ho hr he
          subst ho hr he
          exact ⟨rfl, rfl, rfl, _, rfl, hle⟩

/-- C5: whenever `List` invokes a consistency check (either detector), the callable it
hands over is the plain list request `c.list` (which is the same function whatever the
streaming transport is, so the secondary fetch cannot stream), the options are the caller's
original options, the snapshot is the very result `List` returns, and the state `List`
leaves is the detector's, run on exactly those arguments. -/
theorem List_detector_arguments {σ : Type} (env : Env σ) (c : daemonSets)
    (ctx : Context) (opts : ListOptions) (s : σ)
    (identity : String) (listFn : ListFn σ) (o : ListOptions) (r : Option DaemonSetList)
    (h : Step.checkWatchList identity listFn o r ∈ (daemonSets.List env c ctx opts s).trace ∨
         Step.checkList identity listFn o r ∈ (daemonSets.List env c ctx opts s).trace) :
    listFn = daemonSets.list env c ∧
    (∀ f, daemonSets.list { env with WatchListInto := f } c = listFn) ∧
    o = opts ∧
    r = (daemonSets.List env c ctx opts s).result ∧
    (daemonSets.List env c ctx opts s).err = none ∧
    (Step.checkWatchList identity listFn o r ∈ (daemonSets.List env c ctx opts s).trace →
      (daemonSets.List env c ctx opts s).state =
        env.CheckWatchListFromCacheDataConsistencyIfRequested ctx identity
          (daemonSets.list env c) opts (daemonSets.List env c ctx opts s).result
          (daemonSets.watchList env c ctx
            (env.PrepareWatchListOptionsFromListOptions opts).watchListOptions s).state) ∧
    (Step.checkList identity listFn o r ∈ (daemonSets.List env c ctx opts s).trace →
      ∃ s0, (daemonSets.list env c ctx opts s0).result = (daemonSets.List env c ctx opts s).result ∧
        (daemonSets.List env c ctx opts s).state =
          env.CheckListFromCacheDataConsistencyIfRequested ctx identity
            (daemonSets.list env c) opts (daemonSets.List env c ctx opts s).result
            (daemonSets.list env c ctx opts s0).state) := by
  suffices core :
      listFn = daemonSets.list env c ∧
      o = opts ∧
      r = (daemonSets.List env c ctx opts s).result ∧
      (daemonSets.List env c ctx opts s).err = none ∧
      (Step.checkWatchList identity listFn o r ∈ (daemonSets.List env c ctx opts s).trace →
        (daemonSets.List env c ctx opts s).state =
          env.CheckWatchListFromCacheDataConsistencyIfRequested ctx identity
            (daemonSets.list env c) opts (daemonSets.List env c ctx opts s).result
            (daemonSets.watchList env c ctx
              (env.PrepareWatchListOptionsFromListOptions opts).watchListOptions s).state) ∧
      (Step.checkList identity listFn o r ∈ (daemonSets.List env c ctx opts s).trace →
        ∃ s0, (daemonSets.list env c ctx opts s0).result = (daemonSets.List env c ctx opts s).result ∧
          (daemonSets.List env c ctx opts s).state =
            env.CheckListFromCacheDataConsistencyIfRequested ctx identity
              (daemonSets.list env c) opts (daemonSets.List env c ctx opts s).result
              (daemonSets.list env c ctx opts s0).state)
    from ⟨core.1, fun _ => core.1 ▸ rfl, core.2⟩
  have tail : ∀ (t : List (Step σ)) (s0 : σ),
      (∀ i f o1 r1, Step.checkWatchList i f o1 r1 ∉ t) →
      (∀ i f o1 r1, Step.checkList i f o1 r1 ∉ t) →
      (Step.checkWatchList identity listFn o r ∈ (daemonSets.ListTail env c ctx opts t s0).trace ∨
        Step.checkList identity listFn o r ∈ (daemonSets.ListTail env c ctx opts t s0).trace) →
      listFn = daemonSets.list env c ∧ o = opts ∧
      r = (daemonSets.ListTail env c ctx opts t s0).result ∧
      (daemonSets.ListTail env c ctx opts t s0).err = none ∧
      Step.checkWatchList identity listFn o r ∉ (daemonSets.ListTail env c ctx opts t s0).trace ∧
      (daemonSets.ListTail env c ctx opts t s0).state =
          env.CheckListFromCacheDataConsistencyIfRequested ctx identity
            (daemonSets.list env c) opts (daemonSets.ListTail env c ctx opts t s0).result
            (daemonSets.list env c ctx opts s0).state := by
    intro t s0 hw hl hmem
    cases hle : (daemonSets.list env c ctx opts s0).err with
    | none =>
      simp [daemonSets.ListTail, hle, hw, hl] at hmem ⊢
      obtain ⟨h1, h2, h3, h4⟩ := hmem
      subst h1 h2 h3 h4
      simp
    | some e =>
      simp [daemonSets.ListTail, hle, hw, hl] at hmem
  cases hp : (env.PrepareWatchListOptionsFromListOptions opts).watchListOptionsErr with
  | some e0 =>
    have ht := tail [.prepare opts (env.PrepareWatchListOptionsFromListOptions opts),
       .warning ("Failed preparing watchlist options for daemonsets, falling back to the standard LIST semantics, err = " ++ e0)]
       s (by simp) (by simp)
    simp only [daemonSets.List, hp] at h ⊢
    obtain ⟨a, b, c1, d, e1, f⟩ := ht h
    exact ⟨a, b, c1, d, fun hx => absurd hx e1,
      fun _ => ⟨s, (ListTail_result _ _ _ _ _ _).symm, f⟩⟩
  | none =>
    cases hh : (env.PrepareWatchListOptionsFromListOptions opts).hasWatchListOptionsPrepared with
    | false =>
      have ht := tail [.prepare opts (env.PrepareWatchListOptionsFromListOptions opts)]
         s (by simp) (by simp)
      simp only [daemonSets.List, hp, hh] at h ⊢
      obtain ⟨a, b, c1, d, e1, f⟩ := ht h
      exact ⟨a, b, c1, d, fun hx => absurd hx e1,
        fun _ => ⟨s, (ListTail_result _ _ _ _ _ _).symm, f⟩⟩
    | true =>
      cases hw : (daemonSets.watchList env c ctx
          (env.PrepareWatchListOptionsFromListOptions opts).watchListOptions s).err with
      | none =>
        simp [daemonSets.List, hp, hh, hw] at h ⊢
        obtain ⟨h1, h2, h3, h4⟩ := h
        subst h1 h2 h3 h4
        simp
      | some e2 =>
        have ht := tail [.prepare opts (env.PrepareWatchListOptionsFromListOptions opts),
            .watchList (env.PrepareWatchListOptionsFromListOptions opts).watchListOptions
              (daemonSets.watchList env c ctx
                (env.PrepareWatchListOptionsFromListOptions opts).watchListOptions s).result
              (some e2),
            .warning ("The watchlist request for daemonsets ended with an error, falling back to the standard LIST semantics, err = " ++ e2)]
           (daemonSets.watchList env c ctx
              (env.PrepareWatchListOptionsFromListOptions opts).watchListOptions s).state
           (by simp) (by simp)
        simp only [daemonSets.List, hp, hh, hw, if_true] at h ⊢
        obtain ⟨a, b, c1, d, e1, f⟩ := ht h
        exact ⟨a, b, c1, d, fun hx => absurd hx e1,
          fun _ => ⟨_, (ListTail_result _ _ _ _ _ _).symm, f⟩⟩

/-- At a scripted run whose streaming attempt yields two items, the watch-list detector is
invoked with `c.list`, the caller's empty options and the two items `List` returns. -/
theorem List_detector_arguments_witness :
    Step.checkWatchList "watchlist request for daemonsets"
        (daemonSets.list (scriptEnv ⟨streamingOptions, true, none⟩ (twoItems, none)
          (oneItem, none)) ⟨"default"⟩) {} (some twoItems)
      ∈ (daemonSets.List (scriptEnv ⟨streamingOptions, true, none⟩ (twoItems, none)
          (oneItem, none)) ⟨"default"⟩ ⟨3⟩ {} 0).trace ∧
    some twoItems = (daemonSets.List (scriptEnv ⟨streamingOptions, true, none⟩ (twoItems, none)
          (oneItem, none)) ⟨"default"⟩ ⟨3⟩ {} 0).result :=
  have hmem : Step.checkWatchList "watchlist request for daemonsets"
        (daemonSets.list (scriptEnv ⟨streamingOptions, true, none⟩ (twoItems, none)
          (oneItem, none)) ⟨"default"⟩) {} (some twoItems)
      ∈ (daemonSets.List (scriptEnv ⟨streamingOptions, true, none⟩ (twoItems, none)
          (oneItem, none)) ⟨"default"⟩ ⟨3⟩ {} 0).trace := by
    simp [daemonSets.List, daemonSets.watchList, scriptEnv]
  ⟨hmem, (List_detector_arguments _ _ _ _ _ _ _ _ _ (Or.inl hmem)).2.2.2.1⟩

theorem retrievals_append {σ : Type} (a b : List (Step σ)) :
    retrievals (a ++ b) = retrievals a ++ retrievals b := by
  induction a with
  | nil => rfl
  | cons x t ih => cases x <;> simp [retrievals, ih]

theorem ListTail_state {σ : Type} (env : Env σ) (c : daemonSets) (ctx : Context)
    (opts : ListOptions) (t : List (Step σ)) (s0 : σ) :
    (daemonSets.ListTail env c ctx opts t s0).state = stateAfterList env c ctx opts s0 := by
  cases h : (daemonSets.list env c ctx opts s0).err <;>
    simp [daemonSets.ListTail, stateAfterList, h]

theorem ListTail_retrievals {σ : Type} (env : Env σ) (c : daemonSets) (ctx : Context)
    (opts : ListOptions) (t : List (Step σ)) (s0 : σ) :
    retrievals (daemonSets.ListTail env c ctx opts t s0).trace =
      retrievals t ++ [Retrieval.list] := by
  cases h : (daemonSets.list env c ctx opts s0).err <;>
    simp [ListTail_trace, retrievals_append, retrievals, h]

theorem List_run_of_retrievals {σ : Type} (env : Env σ) (c : daemonSets) (ctx : Context)
    (opts : ListOptions) (s : σ) :
    (retrievals (daemonSets.List env c ctx opts s).trace = [Retrieval.list] →
      (daemonSets.List env c ctx opts s).result = (daemonSets.list env c ctx opts s).result ∧
      (daemonSets.List env c ctx opts s).err = (daemonSets.list env c ctx opts s).err ∧
      (daemonSets.List env c ctx opts s).state = stateAfterList env c ctx opts s) ∧
    (retrievals (daemonSets.List env c ctx opts s).trace = [Retrieval.watchList] →
      (daemonSets.List env c ctx opts s).result =
        (daemonSets.watchList env c ctx
          (env.PrepareWatchListOptionsFromListOptions opts).watchListOptions s).result ∧
      (daemonSets.List env c ctx opts s).err = none ∧
      (daemonSets.List env c ctx opts s).state =
        env.CheckWatchListFromCacheDataConsistencyIfRequested ctx
          "watchlist request for daemonsets" (daemonSets.list env c) opts
          (daemonSets.watchList env c ctx
            (env.PrepareWatchListOptionsFromListOptions opts).watchListOptions s).result
          (daemonSets.watchList env c ctx
            (env.PrepareWatchListOptionsFromListOptions opts).watchListOptions s).state) ∧
    (retrievals (daemonSets.List env c ctx opts s).trace =
        [Retrieval.watchList, Retrieval.list] →
      (daemonSets.List env c ctx opts s).result =
        (daemonSets.list env c ctx opts
          (daemonSets.watchList env c ctx
            (env.PrepareWatchListOptionsFromListOptions opts).watchListOptions s).state).result ∧
      (daemonSets.List env c ctx opts s).err =
        (daemonSets.list env c ctx opts
          (daemonSets.watchList env c ctx
            (env.PrepareWatchListOptionsFromListOptions opts).watchListOptions s).state).err ∧
      (daemonSets.List env c ctx opts s).state =
        stateAfterList env c ctx opts
          (daemonSets.watchList env c ctx
            (env.PrepareWatchListOptionsFromListOptions opts).watchListOptions s).state) := by
  cases hp : (env.PrepareWatchListOptionsFromListOptions opts).watchListOptionsErr with
  | some e0 =>
    simp [daemonSets.List, hp, ListTail_retrievals, ListTail_result, ListTail_err,
      ListTail_state, retrievals]
  | none =>
    cases hh : (env.PrepareWatchListOptionsFromListOptions opts).hasWatchListOptionsPrepared with
    | false =>
      simp [daemonSets.List, hp, hh, ListTail_retrievals, ListTail_result, ListTail_err,
        ListTail_state, retrievals]
    | true =>
      cases hw : (daemonSets.watchList env c ctx
          (env.PrepareWatchListOptionsFromListOptions opts).watchListOptions s).err with
      | none =>
        simp [daemonSets.List, hp, hh, hw, retrievals]
      | some e2 =>
        simp [daemonSets.List, hp, hh, hw, ListTail_retrievals, ListTail_result, ListTail_err,
          ListTail_state, retrievals]

/-- C6: in every execution the retrieval steps `List` itself makes are `[list]`,
`[watchList]` or `[watchList, list]`, so at most one streaming attempt, at most one plain
list request, at least one of the two; each of the three traces does occur; and the trace
accounts for every call to the transport: the result, the error and the state the run
leaves are those of exactly the calls in it, followed by the one detector. -/
theorem List_retrieval_traces :
    (∀ (σ : Type) (env : Env σ) (c : daemonSets) (ctx : Context) (opts : ListOptions) (s : σ),
      retrievals (daemonSets.List env c ctx opts s).trace = [Retrieval.list] ∨
      retrievals (daemonSets.List env c ctx opts s).trace = [Retrieval.watchList] ∨
      retrievals (daemonSets.List env c ctx opts s).trace =
        [Retrieval.watchList, Retrieval.list]) ∧
    retrievals (daemonSets.List (scriptEnv ⟨{}, false, none⟩ (twoItems, none) (oneItem, none))
      ⟨"default"⟩ ⟨4⟩ {} 0).trace = [Retrieval.list] ∧
    retrievals (daemonSets.List (scriptEnv ⟨streamingOptions, true, none⟩ (twoItems, none)
      (oneItem, none)) ⟨"default"⟩ ⟨4⟩ {} 0).trace = [Retrieval.watchList] ∧
    retrievals (daemonSets.List (scriptEnv ⟨streamingOptions, true, none⟩
      ({}, some "stream closed") (oneItem, none)) ⟨"default"⟩ ⟨4⟩ {} 0).trace =
        [Retrieval.watchList, Retrieval.list] ∧
    (∀ (σ : Type) (env : Env σ) (c : daemonSets) (ctx : Context) (opts : ListOptions) (s : σ),
      (retrievals (daemonSets.List env c ctx opts s).trace = [Retrieval.list] →
        (daemonSets.List env c ctx opts s).result = (daemonSets.list env c ctx opts s).result ∧
        (daemonSets.List env c ctx opts s).err = (daemonSets.list env c ctx opts s).err ∧
        (daemonSets.List env c ctx opts s).state = stateAfterList env c ctx opts s) ∧
      (retrievals (daemonSets.List env c ctx opts s).trace = [Retrieval.watchList] →
        (daemonSets.List env c ctx opts s).result =
          (daemonSets.watchList env c ctx
            (env.PrepareWatchListOptionsFromListOptions opts).watchListOptions s).result ∧
        (daemonSets.List env c ctx opts s).err = none ∧
        (daemonSets.List env c ctx opts s).state =
          env.CheckWatchListFromCacheDataConsistencyIfRequested ctx
            "watchlist request for daemonsets" (daemonSets.list env c) opts
            (daemonSets.watchList env c ctx
              (env.PrepareWatchListOptionsFromListOptions opts).watchListOptions s).result
            (daemonSets.watchList env c ctx
              (env.PrepareWatchListOptionsFromListOptions opts).watchListOptions s).state) ∧
      (retrievals (daemonSets.List env c ctx opts s).trace =
          [Retrieval.watchList, Retrieval.list] →
        (daemonSets.List env c ctx opts s).result =
          (daemonSets.list env c ctx opts
            (daemonSets.watchList env c ctx
              (env.PrepareWatchListOptionsFromListOptions opts).watchListOptions
              s).state).result ∧
        (daemonSets.List env c ctx opts s).err =
          (daemonSets.list env c ctx opts
            (daemonSets.watchList env c ctx
              (env.PrepareWatchListOptionsFromListOptions opts).watchListOptions s).state).err ∧
        (daemonSets.List env c ctx opts s).state =
          stateAfterList env c ctx opts
            (daemonSets.watchList env c ctx
              (env.PrepareWatchListOptionsFromListOptions opts).watchListOptions s).state)) := by
  refine ⟨?_, rfl, rfl, rfl, fun σ env c ctx opts s => List_run_of_retrievals env c ctx opts s⟩
  intro σ env c ctx opts s
  cases hp : (env.PrepareWatchListOptionsFromListOptions opts).watchListOptionsErr with
  | some e0 =>
    left
    cases hle : (daemonSets.list env c ctx opts s).err <;>
      simp [daemonSets.List, hp, ListTail_trace, retrievals, hle]
  | none =>
    cases hh : (env.PrepareWatchListOptionsFromListOptions opts).hasWatchListOptionsPrepared with
    | false =>
      left
      cases hle : (daemonSets.list env c ctx opts s).err <;>
        simp [daemonSets.List, hp, hh, ListTail_trace, retrievals, hle]
    | true =>
      right
      cases hw : (daemonSets.watchList env c ctx
          (env.PrepareWatchListOptionsFromListOptions opts).watchListOptions s).err with
      | none =>
        left
        simp [daemonSets.List, hp, hh, hw, retrievals]
      | some e2 =>
        right
        cases hle : (daemonSets.list env c ctx opts
            (daemonSets.watchList env c ctx
              (env.PrepareWatchListOptionsFromListOptions opts).watchListOptions s).state).err <;>
          simp [daemonSets.List, hp, hh, hw, ListTail_trace, retrievals, hle]

/-- C7 as stated fails: when the plain list request ends with an error, `List` returns
that error together with the non-nil list object `list` allocated. -/
theorem List_returns_list_with_error :
    (daemonSets.List (scriptEnv ⟨{}, false, none⟩ (twoItems, none)
        ({}, some "connection refused")) ⟨"default"⟩ ⟨5⟩ {} 0).result = some {} ∧
    (daemonSets.List (scriptEnv ⟨{}, false, none⟩ (twoItems, none)
        ({}, some "connection refused")) ⟨"default"⟩ ⟨5⟩ {} 0).err = some "connection refused" :=
  ⟨rfl, rfl⟩

/-- C7, amended: `List` always returns a non-nil list; either the error is nil, or the error
is non-nil and the pair is exactly the pair the plain list request `c.list` returned (its
freshly allocated list object as `Into` left it); a result of the streaming attempt is
never returned with an error. -/
theorem List_outcomes {σ : Type} (env : Env σ) (c : daemonSets)
    (ctx : Context) (opts : ListOptions) (s : σ) :
    (daemonSets.List env c ctx opts s).result ≠ none ∧
    ((daemonSets.List env c ctx opts s).err = none ∨
      ∃ s0 e, (daemonSets.List env c ctx opts s).err = some e ∧
        (daemonSets.list env c ctx opts s0).err = some e ∧
        (daemonSets.list env c ctx opts s0).result = (daemonSets.List env c ctx opts s).result ∧
        Step.list opts (daemonSets.List env c ctx opts s).result (some e)
          ∈ (daemonSets.List env c ctx opts s).trace) := by
  have tail : ∀ (t : List (Step σ)) (s0 : σ),
      (daemonSets.ListTail env c ctx opts t s0).result ≠ none ∧
      ((daemonSets.ListTail env c ctx opts t s0).err = none ∨
        ∃ s1 e, (daemonSets.ListTail env c ctx opts t s0).err = some e ∧
          (daemonSets.list env c ctx opts s1).err = some e ∧
          (daemonSets.list env c ctx opts s1).result =
            (daemonSets.ListTail env c ctx opts t s0).result ∧
          Step.list opts (daemonSets.ListTail env c ctx opts t s0).result (some e)
            ∈ (daemonSets.ListTail env c ctx opts t s0).trace) := by
    intro t s0
    refine ⟨by simp [ListTail_result, daemonSets.list], ?_⟩
    cases hle : (daemonSets.list env c ctx opts s0).err with
    | none => left; simp [ListTail_err, hle]
    | some e =>
      right
      exact ⟨s0, e, by simp [ListTail_err, hle], hle, by simp [ListTail_result],
        by simp [ListTail_trace, ListTail_result, hle]⟩
  cases hp : (env.PrepareWatchListOptionsFromListOptions opts).watchListOptionsErr with
  | some e0 =>
    simp only [daemonSets.List, hp]
    exact tail _ _
  | none =>
    cases hh : (env.PrepareWatchListOptionsFromListOptions opts).hasWatchListOptionsPrepared with
    | false =>
      simp only [daemonSets.List, hp, hh]
      exact tail _ _
    | true =>
      cases hw : (daemonSets.watchList env c ctx
          (env.PrepareWatchListOptionsFromListOptions opts).watchListOptions s).err with
      | none =>
        have hr : (daemonSets.watchList env c ctx
            (env.PrepareWatchListOptionsFromListOptions opts).watchListOptions s).result ≠ none := by
          simp [daemonSets.watchList]
        simp [daemonSets.List, hp, hh, hw, hr]
      | some e2 =>
        simp only [daemonSets.List, hp, hh, hw, if_true]
        exact tail _ _

/-! ## `Apply` and `ApplyStatus` -/

/-- C10 as stated fails: for a configuration that is non-nil, marshals and has a non-nil
`Name` pointing to the empty string, `Apply` and `ApplyStatus` send no request: the REST
client refuses the empty name, nothing is put on the wire, and the call returns the
client's error with the non-nil result object. -/
theorem Apply_empty_name_sends_nothing :
    echoClient.jsonMarshal (namedConfiguration "") = .ok "" ∧
    (namedConfiguration "").ObjectMetaApplyConfiguration = some { Name := some "" } ∧
    daemonSets.Apply echoClient ⟨"default"⟩ ⟨10⟩ (some (namedConfiguration "")) {} [] =
      .returned { result := some {}, err := some "resource name may not be empty",
                  calls := [daemonSets.applyRequest ⟨"default"⟩ "" [] {} ""], state := [] } ∧
    daemonSets.ApplyStatus echoClient ⟨"default"⟩ ⟨10⟩ (some (namedConfiguration "")) {} [] =
      .returned { result := some {}, err := some "resource name may not be empty",
                  calls := [daemonSets.applyRequest ⟨"default"⟩ "" ["status"] {} ""],
                  state := [] } :=
  ⟨rfl, rfl, rfl, rfl⟩

/-- A non-nil configuration that marshals but carries no metadata makes `Apply` and
`ApplyStatus` panic at `name := daemonSet.Name`, before anything is handed to the client. -/
theorem Apply_panics_without_metadata :
    daemonSets.Apply echoClient ⟨"default"⟩ ⟨11⟩ (some {}) {} [] =
      .panic "runtime error: invalid memory address or nil pointer dereference" [] ∧
    daemonSets.ApplyStatus echoClient ⟨"default"⟩ ⟨11⟩ (some {}) {} [] =
      .panic "runtime error: invalid memory address or nil pointer dereference" [] :=
  ⟨rfl, rfl⟩

theorem Apply_contract {σ : Type} (env : ApplyEnv σ) (c : daemonSets)
    (ctx : Context) (daemonSet : Option DaemonSetApplyConfiguration) (opts : ApplyOptions)
    (s : σ) :
    ApplyContract env c ctx daemonSet opts s [] (daemonSets.Apply env c ctx daemonSet opts s) := by
  cases daemonSet with
  | none => simp [ApplyContract, daemonSets.Apply]
  | some ds =>
    cases hm : env.jsonMarshal ds with
    | error e =>
      simp only [ApplyContract, daemonSets.Apply, hm]
      refine ⟨?_, ?_, ?_, ?_, ?_⟩ <;> intros <;> simp_all
    | ok data =>
      cases ho : ds.ObjectMetaApplyConfiguration with
      | none =>
        simp only [ApplyContract, daemonSets.Apply, hm, ho]
        refine ⟨?_, ?_, ?_, ?_, ?_⟩ <;> intros <;> simp_all
      | some om =>
        cases hn : om.Name with
        | none =>
          simp only [ApplyContract, daemonSets.Apply, hm, ho, hn]
          refine ⟨?_, ?_, ?_, ?_, ?_⟩ <;> intros <;> simp_all
        | some name =>
          simp only [ApplyContract, daemonSets.Apply, hm, ho, hn]
          refine ⟨?_, ?_, ?_, ?_, ?_⟩ <;> intros <;> simp_all [daemonSets.applyRequest]

theorem ApplyStatus_contract {σ : Type} (env : ApplyEnv σ) (c : daemonSets)
    (ctx : Context) (daemonSet : Option DaemonSetApplyConfiguration) (opts : ApplyOptions)
    (s : σ) :
    ApplyContract env c ctx daemonSet opts s ["status"]
      (daemonSets.ApplyStatus env c ctx daemonSet opts s) := by
  cases daemonSet with
  | none => simp [ApplyContract, daemonSets.ApplyStatus]
  | some ds =>
    cases hm : env.jsonMarshal ds with
    | error e =>
      simp only [ApplyContract, daemonSets.ApplyStatus, hm]
      refine ⟨?_, ?_, ?_, ?_, ?_⟩ <;> intros <;> simp_all
    | ok data =>
      cases ho : ds.ObjectMetaApplyConfiguration with
      | none =>
        simp only [ApplyContract, daemonSets.ApplyStatus, hm, ho]
        refine ⟨?_, ?_, ?_, ?_, ?_⟩ <;> intros <;> simp_all
      | some om =>
        cases hn : om.Name with
        | none =>
          simp only [ApplyContract, daemonSets.ApplyStatus, hm, ho, hn]
          refine ⟨?_, ?_, ?_, ?_, ?_⟩ <;> intros <;> simp_all
        | some name =>
          simp only [ApplyContract, daemonSets.ApplyStatus, hm, ho, hn]
          refine ⟨?_, ?_, ?_, ?_, ?_⟩ <;> intros <;> simp_all [daemonSets.applyRequest]

/-- C10, amended: for an apply configuration that is nil, fails to marshal, or carries
metadata, `Apply` and `ApplyStatus` hand a PATCH request to the REST client if and only if
the configuration is non-nil, marshals to JSON without error and has a non-nil `Name`;
they then return the non-nil result object with the error of the client's
`Do(ctx).Into(result)` and leave the state the client left, and it is the client that
decides whether the request is sent: an empty name is refused with "resource name may not
be empty" and nothing goes on the wire. Otherwise they return a nil result and a non-nil
error without handing anything to the client: "daemonSet provided to Apply must not be
nil" for a nil configuration, the marshalling error if marshalling fails, and
"daemonSet.Name must be provided to Apply" for a nil `Name`. -/
theorem Apply_and_ApplyStatus_contract {σ : Type} (env : ApplyEnv σ) (c : daemonSets)
    (ctx : Context) (daemonSet : Option DaemonSetApplyConfiguration) (opts : ApplyOptions)
    (s : σ) :
    ApplyContract env c ctx daemonSet opts s [] (daemonSets.Apply env c ctx daemonSet opts s) ∧
    ApplyContract env c ctx daemonSet opts s ["status"]
      (daemonSets.ApplyStatus env c ctx daemonSet opts s) ∧
    (∀ (toPatchOptions : ApplyOptions → PatchOptions)
       (marshal : DaemonSetApplyConfiguration → Except Err String)
       (respond : Request → DaemonSet × Option Err) (wire : List Request)
       (ds : DaemonSetApplyConfiguration) (data : String) (om : ObjectMetaApplyConfiguration),
      marshal ds = .ok data → ds.ObjectMetaApplyConfiguration = some om → om.Name = some "" →
      daemonSets.Apply (restClient toPatchOptions marshal respond) c ctx (some ds) opts wire =
        .returned { result := some {}, err := some "resource name may not be empty",
                    calls := [c.applyRequest "" [] (toPatchOptions opts) data],
                    state := wire } ∧
      daemonSets.ApplyStatus (restClient toPatchOptions marshal respond) c ctx (some ds) opts
          wire =
        .returned { result := some {}, err := some "resource name may not be empty",
                    calls := [c.applyRequest "" ["status"] (toPatchOptions opts) data],
                    state := wire }) := by
  refine ⟨Apply_contract env c ctx daemonSet opts s,
    ApplyStatus_contract env c ctx daemonSet opts s, ?_⟩
  intro toPatchOptions marshal respond wire ds data om hm ho hn
  constructor
  · simp [daemonSets.Apply, restClient, hm, ho, hn, daemonSets.applyRequest]
  · simp [daemonSets.ApplyStatus, restClient, hm, ho, hn, daemonSets.applyRequest]

/-! ## The streaming attempt over a finite event sequence -/

theorem assemble_append_of_plain (pre rest : List WatchEvent) :
    ∀ acc : List DaemonSet,
      (∀ e ∈ pre, e.isError = false ∧ e.isComplete = false) →
      assemble acc (pre ++ rest) = assemble (pre.foldl applyEvent acc) rest := by
  induction pre with
  | nil => intro acc _; rfl
  | cons e t ih =>
    intro acc h
    have ht : ∀ x ∈ t, x.isError = false ∧ x.isComplete = false :=
      fun x hx => h x (List.mem_cons_of_mem _ hx)
    have he := h e (List.mem_cons_self _ _)
    cases e with
    | Added obj => simpa [assemble, applyEvent] using ih _ ht
    | Modified obj => simpa [assemble, applyEvent] using ih _ ht
    | Deleted obj => simpa [assemble, applyEvent] using ih _ ht
    | Bookmark rv fin =>
      cases fin with
      | true => simp [WatchEvent.isComplete] at he
      | false => simpa [assemble, applyEvent] using ih _ ht
    | Error status => simp [WatchEvent.isError] at he

theorem assemble_ok_split (events : List WatchEvent) :
    ∀ (acc : List DaemonSet) (snap : DaemonSetList), assemble acc events = .ok snap →
      ∃ pre rv post, events = pre ++ WatchEvent.Bookmark rv true :: post ∧
        (∀ e ∈ pre, e.isError = false ∧ e.isComplete = false) ∧
        snap = { ResourceVersion := rv, Items := pre.foldl applyEvent acc } := by
  induction events with
  | nil => intro acc snap h; simp [assemble] at h
  | cons e t ih =>
    intro acc snap h
    have step : ∀ acc1, e.isError = false → e.isComplete = false →
        applyEvent acc e = acc1 → assemble acc1 t = .ok snap →
        ∃ pre rv post, e :: t = pre ++ WatchEvent.Bookmark rv true :: post ∧
          (∀ x ∈ pre, x.isError = false ∧ x.isComplete = false) ∧
          snap = { ResourceVersion := rv, Items := pre.foldl applyEvent acc } := by
      intro acc1 h1 h2 h3 h4
      obtain ⟨pre, rv, post, hs, hp, hsnap⟩ := ih acc1 snap h4
      refine ⟨e :: pre, rv, post, by simp [hs], ?_, by simp [List.foldl, h3, hsnap]⟩
      intro x hx
      rcases List.mem_cons.mp hx with hx | hx
      · subst hx; exact ⟨h1, h2⟩
      · exact hp x hx
    cases e with
    | Added obj => exact step _ rfl rfl rfl (by simpa [assemble] using h)
    | Modified obj => exact step _ rfl rfl rfl (by simpa [assemble] using h)
    | Deleted obj => exact step _ rfl rfl rfl (by simpa [assemble] using h)
    | Bookmark rv fin =>
      cases fin with
      | true =>
        refine ⟨[], rv, t, rfl, by simp, ?_⟩
        simp [assemble] at h
        simp [← h]
      | false => exact step _ rfl rfl rfl (by simpa [assemble] using h)
    | Error status => simp [assemble] at h

theorem assemble_ok_of_bookmark (pre : List WatchEvent) (rv : String) (post : List WatchEvent) :
    ∀ acc : List DaemonSet, (∀ e ∈ pre, e.isError = false) →
      ∃ snap, assemble acc (pre ++ WatchEvent.Bookmark rv true :: post) = .ok snap := by
  induction pre with
  | nil => intro acc _; exact ⟨_, rfl⟩
  | cons e t ih =>
    intro acc h
    have ht : ∀ x ∈ t, x.isError = false := fun x hx => h x (List.mem_cons_of_mem _ hx)
    have he := h e (List.mem_cons_self _ _)
    cases e with
    | Added obj => simpa [assemble] using ih _ ht
    | Modified obj => simpa [assemble] using ih _ ht
    | Deleted obj => simpa [assemble] using ih _ ht
    | Bookmark rv1 fin =>
      cases fin with
      | true => exact ⟨_, rfl⟩
      | false => simpa [assemble] using ih _ ht
    | Error status => simp [WatchEvent.isError] at he

theorem lookup_map_replace (name : String) (obj : DaemonSet) (acc : List DaemonSet) :
    lookup name (acc.map (fun x => if x.Name = obj.Name then obj else x)) =
      if obj.Name = name then
        (if acc.any (fun x => decide (x.Name = obj.Name)) then some obj else none)
      else lookup name acc := by
  induction acc with
  | nil => simp [lookup]
  | cons x t ih =>
    by_cases hx : x.Name = obj.Name
    · by_cases hn : obj.Name = name
      · simp [lookup, hx, hn]
      · have hxn : ¬ obj.Name = name := hn
        simp [lookup, hx, hn] at ih ⊢
        exact ih
    · by_cases hn : obj.Name = name
      · have hxn : ¬ x.Name = name := fun h => hx (h.trans hn.symm)
        simp [lookup, hx, hn, hxn] at ih ⊢
        exact ih
      · by_cases hxn : x.Name = name
        · have hn2 : ¬ name = obj.Name := fun h => hn h.symm
          simp [lookup, hn, hxn, hn2]
        · simp [lookup, hx, hn, hxn] at ih ⊢
          exact ih

theorem lookup_append_single (name : String) (obj : DaemonSet) (acc : List DaemonSet) :
    lookup name (acc ++ [obj]) =
      match lookup name acc with
      | some x => some x
      | none => if obj.Name = name then some obj else none := by
  induction acc with
  | nil => simp [lookup]
  | cons x t ih =>
    by_cases hxn : x.Name = name
    · simp [lookup, hxn]
    · simpa [lookup, hxn] using ih

theorem lookup_none_of_not_any (name : String) (acc : List DaemonSet)
    (h : acc.any (fun x => decide (x.Name = name)) = false) : lookup name acc = none := by
  induction acc with
  | nil => rfl
  | cons x t ih =>
    simp only [List.any_cons, Bool.or_eq_false_iff, decide_eq_false_iff_not] at h
    simp [lookup, h.1, ih h.2]

theorem lookup_upsert (name : String) (obj : DaemonSet) (acc : List DaemonSet) :
    lookup name (upsert acc obj) = if obj.Name = name then some obj else lookup name acc := by
  unfold upsert
  cases ha : acc.any (fun x => decide (x.Name = obj.Name)) with
  | true => simp [lookup_map_replace, ha]
  | false =>
    by_cases hn : obj.Name = name
    · have hnone : lookup name acc = none := lookup_none_of_not_any name acc (hn ▸ ha)
      simp [lookup_append_single, hnone, hn]
    · cases hl : lookup name acc <;> simp [lookup_append_single, hl, hn]

theorem lookup_remove (name : String) (obj : DaemonSet) (acc : List DaemonSet) :
    lookup name (remove acc obj) = if obj.Name = name then none else lookup name acc := by
  unfold remove
  induction acc with
  | nil => simp [lookup]
  | cons x t ih =>
    by_cases hx : x.Name = obj.Name
    · by_cases hn : obj.Name = name
      · simpa [List.filter, hx, hn] using ih
      · have hxn : ¬ x.Name = name := fun h => hn (hx ▸ h)
        simpa [List.filter, hx, hn, lookup, hxn] using ih
    · by_cases hxn : x.Name = name
      · have hn : ¬ obj.Name = name := fun h => hx (hxn.trans h.symm)
        have hn2 : ¬ name = obj.Name := fun h => hn h.symm
        simp [List.filter, hn, hn2, lookup, hxn]
      · simpa [List.filter, hx, lookup, hxn] using ih

theorem lookup_foldl_applyEvent (name : String) (events : List WatchEvent) :
    ∀ acc : List DaemonSet,
      lookup name (events.foldl applyEvent acc) = latest name (lookup name acc) events := by
  induction events with
  | nil => intro acc; rfl
  | cons e t ih =>
    intro acc
    cases e <;>
      simp [List.foldl, latest, applyEvent, ih, lookup_upsert, lookup_remove]

theorem names_map_replace (obj : DaemonSet) (acc : List DaemonSet) :
    (acc.map (fun x => if x.Name = obj.Name then obj else x)).map (fun x => x.Name) =
      acc.map (fun x => x.Name) := by
  induction acc with
  | nil => rfl
  | cons x t ih =>
    by_cases hx : x.Name = obj.Name
    · simpa [hx] using ih
    · simpa [hx] using ih

theorem nodup_upsert (obj : DaemonSet) (acc : List DaemonSet)
    (h : (acc.map (fun x => x.Name)).Nodup) :
    ((upsert acc obj).map (fun x => x.Name)).Nodup := by
  unfold upsert
  cases ha : acc.any (fun x => decide (x.Name = obj.Name)) with
  | true =>
    simp only [if_true]
    rw [names_map_replace]
    exact h
  | false =>
    have hnot : obj.Name ∉ acc.map (fun x => x.Name) := by
      intro hm
      obtain ⟨x, hx, hxn⟩ := List.mem_map.mp hm
      have : acc.any (fun x => decide (x.Name = obj.Name)) = true :=
        List.any_eq_true.mpr ⟨x, hx, by simpa using hxn⟩
      simp [ha] at this
    simp only [Bool.false_eq_true, if_false, List.map_append, List.map_cons, List.map_nil]
    exact List.Nodup.append h (List.nodup_singleton _)
      (by
        intro a ha1 ha2
        rw [List.mem_singleton] at ha2
        exact hnot (ha2 ▸ ha1))

theorem nodup_remove (obj : DaemonSet) (acc : List DaemonSet)
    (h : (acc.map (fun x => x.Name)).Nodup) :
    ((remove acc obj).map (fun x => x.Name)).Nodup :=
  List.Nodup.sublist (List.Sublist.map _ (List.filter_sublist _)) h

theorem nodup_foldl_applyEvent (events : List WatchEvent) :
    ∀ acc : List DaemonSet, (acc.map (fun x => x.Name)).Nodup →
      ((events.foldl applyEvent acc).map (fun x => x.Name)).Nodup := by
  induction events with
  | nil => intro acc h; exact h
  | cons e t ih =>
    intro acc h
    cases e with
    | Added obj => exact ih _ (nodup_upsert obj acc h)
    | Modified obj => exact ih _ (nodup_upsert obj acc h)
    | Deleted obj => exact ih _ (nodup_remove obj acc h)
    | Bookmark rv fin => exact ih _ h
    | Error status => exact ih _ h

theorem mem_iff_lookup (d : DaemonSet) (acc : List DaemonSet)
    (h : (acc.map (fun x => x.Name)).Nodup) : d ∈ acc ↔ lookup d.Name acc = some d := by
  induction acc with
  | nil => simp [lookup]
  | cons x t ih =>
    rw [List.map_cons, List.nodup_cons] at h
    by_cases hx : x.Name = d.Name
    · have hd : d ∉ t := fun hm => h.1 (hx ▸ List.mem_map.mpr ⟨d, hm, rfl⟩)
      simp only [lookup, hx, if_true, List.mem_cons, Option.some.injEq]
      constructor
      · rintro (rfl | hm)
        · rfl
        · exact absurd hm hd
      · intro hxd
        exact Or.inl hxd.symm
    · have hne : d ≠ x := fun hdx => hx (hdx ▸ rfl)
      simp only [lookup, hx, if_false, List.mem_cons]
      rw [← ih h.2]
      constructor
      · rintro (hdx | hm)
        · exact absurd hdx hne
        · exact hm
      · exact Or.inr

/-- The items the fold of a sequence of events leaves have pairwise different identities,
and an item is among them exactly when it is the latest payload of its identity: the last
Added or Modified event for that identity, with no Deleted after it. -/
theorem mem_foldEvents_iff (events : List WatchEvent) :
    ((foldEvents events).map (fun x => x.Name)).Nodup ∧
    ∀ d : DaemonSet, d ∈ foldEvents events ↔ latest d.Name none events = some d := by
  have hnd := nodup_foldl_applyEvent events [] (by simp)
  refine ⟨hnd, fun d => ?_⟩
  unfold foldEvents at *
  rw [mem_iff_lookup d _ hnd, lookup_foldl_applyEvent]
  rfl

/-- C9: over a watch stream that delivers a given finite event sequence, the streaming
attempt `watchList` succeeds exactly when the sequence contains a Bookmark with the
initial-state-complete annotation that no Error event precedes; it then yields the fold of
the events before the first such Bookmark as items (pairwise different identities, each
the latest payload of its identity) and that Bookmark's resource version; otherwise it
fails and the list it returns is the empty one, no partial accumulation. -/
theorem watchList_assembles (cfg : Config) (srv : Server) (c : daemonSets) (ctx : Context)
    (opts : ListOptions) (w : World) (events : List WatchEvent)
    (hstream : srv.openWatchStream (c.listRequest opts).withWatch w = .ok events) :
    ((daemonSets.watchList (specEnv cfg srv) c ctx opts w).err = none ↔
      ∃ pre rv post, events = pre ++ WatchEvent.Bookmark rv true :: post ∧
        ∀ e ∈ pre, e.isError = false) ∧
    (∀ pre rv post, events = pre ++ WatchEvent.Bookmark rv true :: post →
      (∀ e ∈ pre, e.isError = false ∧ e.isComplete = false) →
      (daemonSets.watchList (specEnv cfg srv) c ctx opts w).err = none ∧
      (daemonSets.watchList (specEnv cfg srv) c ctx opts w).result =
        some { ResourceVersion := rv, Items := foldEvents pre } ∧
      ((foldEvents pre).map (fun x => x.Name)).Nodup ∧
      ∀ d : DaemonSet, d ∈ foldEvents pre ↔ latest d.Name none pre = some d) ∧
    ((daemonSets.watchList (specEnv cfg srv) c ctx opts w).err ≠ none →
      (daemonSets.watchList (specEnv cfg srv) c ctx opts w).result = some {}) := by
  cases ha : assemble [] events with
  | ok snap =>
    have herr : (daemonSets.watchList (specEnv cfg srv) c ctx opts w).err = none := by
      simp [daemonSets.watchList, specEnv, watchListInto, hstream, ha]
    have hres : (daemonSets.watchList (specEnv cfg srv) c ctx opts w).result = some snap := by
      simp [daemonSets.watchList, specEnv, watchListInto, hstream, ha]
    refine ⟨⟨fun _ => ?_, fun _ => herr⟩, ?_, fun h => absurd herr h⟩
    · obtain ⟨pre, rv, post, hs, hp, _⟩ := assemble_ok_split events [] snap ha
      exact ⟨pre, rv, post, hs, fun e he => (hp e he).1⟩
    · intro pre rv post hs hp
      have h2 := assemble_append_of_plain pre (WatchEvent.Bookmark rv true :: post) [] hp
      rw [← hs, ha] at h2
      simp only [assemble] at h2
      refine ⟨herr, ?_, mem_foldEvents_iff pre⟩
      rw [hres]
      simpa [foldEvents] using h2
  | error e =>
    have herr : (daemonSets.watchList (specEnv cfg srv) c ctx opts w).err = some e := by
      simp [daemonSets.watchList, specEnv, watchListInto, hstream, ha]
    have hres : (daemonSets.watchList (specEnv cfg srv) c ctx opts w).result = some {} := by
      simp [daemonSets.watchList, specEnv, watchListInto, hstream, ha]
    have hno : ∀ pre rv post, events = pre ++ WatchEvent.Bookmark rv true :: post →
        (∀ x ∈ pre, x.isError = false) → False := by
      intro pre rv post hs hp
      obtain ⟨snap, hsnap⟩ := assemble_ok_of_bookmark pre rv post [] hp
      rw [← hs, ha] at hsnap
      cases hsnap
    refine ⟨⟨fun h => ?_, fun ⟨pre, rv, post, hs, hp⟩ => (hno pre rv post hs hp).elim⟩, ?_,
      fun _ => hres⟩
    · rw [herr] at h
      cases h
    · intro pre rv post hs hp
      exact (hno pre rv post hs (fun x hx => (hp x hx).1)).elim

/-- Over a stream delivering `[Added(a), Added(b), Modified(a'), Bookmark(complete, rv=5)]`
the streaming attempt yields `{a', b}` at version 5, and over
`[Added(a), Added(b), Deleted(a), Bookmark(complete, rv=7)]` it yields `{b}` at version 7. -/
theorem watchList_assembles_witness :
    (daemonSets.watchList
        (specEnv (allStreaming false)
          (replayServer [.Added { Name := "a" }, .Added { Name := "b" },
            .Modified { Name := "a", Payload := "v2" }, .Bookmark "5" true] (.ok {})))
        ⟨"default"⟩ ⟨6⟩ streamingOptions {}).result =
      some { ResourceVersion := "5",
             Items := [{ Name := "a", Payload := "v2" }, { Name := "b" }] } ∧
    (daemonSets.watchList
        (specEnv (allStreaming false)
          (replayServer [.Added { Name := "a" }, .Added { Name := "b" },
            .Deleted { Name := "a" }, .Bookmark "7" true] (.ok {})))
        ⟨"default"⟩ ⟨6⟩ streamingOptions {}).result =
      some { ResourceVersion := "7", Items := [{ Name := "b" }] } :=
  ⟨((watchList_assembles (allStreaming false)
        (replayServer [.Added { Name := "a" }, .Added { Name := "b" },
            .Modified { Name := "a", Payload := "v2" }, .Bookmark "5" true] (.ok {}))
        ⟨"default"⟩ ⟨6⟩ streamingOptions {} _ rfl).2.1
      [.Added { Name := "a" }, .Added { Name := "b" },
        .Modified { Name := "a", Payload := "v2" }] "5" [] rfl (by decide)).2.1,
   ((watchList_assembles (allStreaming false)
        (replayServer [.Added { Name := "a" }, .Added { Name := "b" },
            .Deleted { Name := "a" }, .Bookmark "7" true] (.ok {}))
        ⟨"default"⟩ ⟨6⟩ streamingOptions {} _ rfl).2.1
      [.Added { Name := "a" }, .Added { Name := "b" }, .Deleted { Name := "a" }] "7" [] rfl
      (by decide)).2.1⟩

/-! ## Requests on the wire -/

theorem listRequest_rawQuery (c : daemonSets) (o : ListOptions) :
    (c.listRequest o).rawQuery = rawQuery o := rfl

theorem listRequest_withWatch_rawQuery (c : daemonSets) (o : ListOptions) :
    (c.listRequest o).withWatch.rawQuery = rawQuery { o with Watch := true } := rfl

theorem list_requests (cfg : Config) (srv : Server) (c : daemonSets) (ctx : Context)
    (o : ListOptions) (w : World) :
    (daemonSets.list (specEnv cfg srv) c ctx o w).state.requests = w.requests ++ [rawQuery o] ∧
    (daemonSets.list (specEnv cfg srv) c ctx o w).state.fatal = w.fatal := by
  cases h : srv.performSnapshotRequest (c.listRequest o) w <;>
    simp [daemonSets.list, specEnv, snapshotInto, h, listRequest_rawQuery]

theorem watchList_requests (cfg : Config) (srv : Server) (c : daemonSets) (ctx : Context)
    (o : ListOptions) (w : World) :
    (daemonSets.watchList (specEnv cfg srv) c ctx o w).state.requests =
      w.requests ++ [rawQuery { o with Watch := true }] := by
  cases h : srv.openWatchStream (c.listRequest o).withWatch w with
  | error e =>
    simp [daemonSets.watchList, specEnv, watchListInto, h, listRequest_withWatch_rawQuery]
  | ok events =>
    cases ha : assemble [] events <;>
      simp [daemonSets.watchList, specEnv, watchListInto, h, ha, listRequest_withWatch_rawQuery]

theorem check_requests (enabled : Bool) (cfg : Config) (srv : Server) (c : daemonSets)
    (ctx : Context) (identity : String) (o : ListOptions) (snap : DaemonSetList) (w : World) :
    (checkDataConsistency enabled ctx identity (daemonSets.list (specEnv cfg srv) c) o
        (some snap) w).requests =
      w.requests ++
        (if enabled then
          [rawQuery { o with ResourceVersion := snap.ResourceVersion,
                             ResourceVersionMatch := .Exact }]
         else []) := by
  cases enabled with
  | false => simp [checkDataConsistency]
  | true =>
    have hl := (list_requests cfg srv c ctx
      { o with ResourceVersion := snap.ResourceVersion, ResourceVersionMatch := .Exact } w).1
    simp only [checkDataConsistency, if_true]
    split
    · split <;> simp [hl]
    · simp [hl]

theorem rawQuery_streaming :
    rawQuery { streamingOptions with Watch := true } = streamingQuery := by
  decide

theorem rawQuery_pinned (rv : String) (h : rv ≠ "") :
    rawQuery (pinnedOptions rv) = "resourceVersion=" ++ rv ++ "&resourceVersionMatch=Exact" := by
  have e : "&" ++ "resourceVersionMatch=Exact" = "&resourceVersionMatch=Exact" := by decide
  simp [rawQuery, pinnedOptions, h, joinAmp, String.append_assoc, e]

theorem negotiate_empty (cfg : Config) (hgate : cfg.WatchListClient = true)
    (hcompat : cfg.compatible {} = true) :
    negotiate cfg {} = ⟨streamingOptions, true, none⟩ := by
  simp [negotiate, hgate, hcompat, streamingOptions]

theorem watchList_result_some {σ : Type} (env : Env σ) (c : daemonSets) (ctx : Context)
    (o : ListOptions) (s : σ) :
    ∃ snap, (daemonSets.watchList env c ctx o s).result = some snap :=
  ⟨_, rfl⟩

theorem list_result_some {σ : Type} (env : Env σ) (c : daemonSets) (ctx : Context)
    (o : ListOptions) (s : σ) :
    ∃ snap, (daemonSets.list env c ctx o s).result = some snap :=
  ⟨_, rfl⟩

/-- C8 as stated fails: with the feature enabled and detection disabled, a `List` call with
empty options whose watch stream closes before the completion Bookmark sends a second
request, the plain list request with an empty raw query, and succeeds. -/
theorem List_fallback_sends_second_request :
    (daemonSets.List (specEnv (allStreaming false)
        (replayServer [.Added { Name := "a" }] (.ok oneItem)))
      ⟨"default"⟩ ⟨7⟩ {} {}).state.requests = [streamingQuery, ""] ∧
    (daemonSets.List (specEnv (allStreaming false)
        (replayServer [.Added { Name := "a" }] (.ok oneItem)))
      ⟨"default"⟩ ⟨7⟩ {} {}).err = none := by
  decide

/-- C8, amended: with the WatchListClient feature enabled and the empty options compatible
with streaming, a `List` call with empty options first sends the streaming request, raw
query `allowWatchBookmarks=true&resourceVersionMatch=NotOlderThan&sendInitialEvents=true&watch=true`.
When that attempt succeeds, the only further request is, when watch-list consistency
detection is enabled, the fetch pinned to the returned list's resource version, raw query
`resourceVersion=<rv>&resourceVersionMatch=Exact` (no watch flag; an empty `<rv>` is left
out like any unset parameter). When the attempt fails, the next request is the plain list
request of the fallback, whose raw query is empty. -/
theorem List_wire_requests (cfg : Config) (srv : Server) (c : daemonSets) (ctx : Context)
    (w : World) (hgate : cfg.WatchListClient = true) (hcompat : cfg.compatible {} = true) :
    (∃ rest, (daemonSets.List (specEnv cfg srv) c ctx {} w).state.requests =
        w.requests ++ streamingQuery :: rest) ∧
    ((daemonSets.watchList (specEnv cfg srv) c ctx streamingOptions w).err = none →
      ∃ snap, (daemonSets.List (specEnv cfg srv) c ctx {} w).result = some snap ∧
        (daemonSets.List (specEnv cfg srv) c ctx {} w).err = none ∧
        (daemonSets.List (specEnv cfg srv) c ctx {} w).state.requests =
          w.requests ++ streamingQuery ::
            (if cfg.watchListDetection then [rawQuery (pinnedOptions snap.ResourceVersion)]
             else []) ∧
        (pinnedOptions snap.ResourceVersion).Watch = false ∧
        (snap.ResourceVersion ≠ "" →
          rawQuery (pinnedOptions snap.ResourceVersion) =
            "resourceVersion=" ++ snap.ResourceVersion ++ "&resourceVersionMatch=Exact")) ∧
    ((daemonSets.watchList (specEnv cfg srv) c ctx streamingOptions w).err ≠ none →
      ∃ rest, (daemonSets.List (specEnv cfg srv) c ctx {} w).state.requests =
        w.requests ++ streamingQuery :: "" :: rest) := by
  have hp : (specEnv cfg srv).PrepareWatchListOptionsFromListOptions {} =
      ⟨streamingOptions, true, none⟩ := negotiate_empty cfg hgate hcompat
  have hwr := watchList_requests cfg srv c ctx streamingOptions w
  rw [rawQuery_streaming] at hwr
  have hq0 : rawQuery {} = "" := by decide
  cases hw : (daemonSets.watchList (specEnv cfg srv) c ctx streamingOptions w).err with
  | none =>
    obtain ⟨snap, hsnap⟩ := watchList_result_some (specEnv cfg srv) c ctx streamingOptions w
    have hstate : (daemonSets.List (specEnv cfg srv) c ctx {} w).state =
        checkDataConsistency cfg.watchListDetection ctx "watchlist request for daemonsets"
          (daemonSets.list (specEnv cfg srv) c) {} (some snap)
          (daemonSets.watchList (specEnv cfg srv) c ctx streamingOptions w).state := by
      simp only [daemonSets.List, hp, hw, if_true, hsnap]
      rfl
    have hreq := check_requests cfg.watchListDetection cfg srv c ctx
      "watchlist request for daemonsets" {} snap
      (daemonSets.watchList (specEnv cfg srv) c ctx streamingOptions w).state
    rw [← hstate, hwr] at hreq
    have hreq2 : (daemonSets.List (specEnv cfg srv) c ctx {} w).state.requests =
        w.requests ++ streamingQuery ::
          (if cfg.watchListDetection then [rawQuery (pinnedOptions snap.ResourceVersion)]
           else []) := by
      rw [hreq]
      simp [pinnedOptions]
    refine ⟨⟨_, hreq2⟩, fun _ => ⟨snap, ?_, ?_, hreq2, rfl, rawQuery_pinned _⟩,
      fun h => absurd rfl h⟩
    · simp only [daemonSets.List, hp, hw, if_true, hsnap]
    · simp only [daemonSets.List, hp, hw, if_true]
  | some e =>
    have hlr := (list_requests cfg srv c ctx {}
      (daemonSets.watchList (specEnv cfg srv) c ctx streamingOptions w).state).1
    rw [hwr, hq0] at hlr
    have hfall : ∃ rest, (daemonSets.List (specEnv cfg srv) c ctx {} w).state.requests =
        w.requests ++ streamingQuery :: "" :: rest := by
      simp only [daemonSets.List, hp, hw, if_true, daemonSets.ListTail]
      cases hle : (daemonSets.list (specEnv cfg srv) c ctx {}
          (daemonSets.watchList (specEnv cfg srv) c ctx streamingOptions w).state).err with
      | none =>
        obtain ⟨snap, hsnap⟩ := list_result_some (specEnv cfg srv) c ctx {}
          (daemonSets.watchList (specEnv cfg srv) c ctx streamingOptions w).state
        have hreq := check_requests cfg.listDetection cfg srv c ctx
          "list request for daemonsets" {} snap
          (daemonSets.list (specEnv cfg srv) c ctx {}
            (daemonSets.watchList (specEnv cfg srv) c ctx streamingOptions w).state).state
        rw [hlr] at hreq
        refine ⟨if cfg.listDetection then [rawQuery (pinnedOptions snap.ResourceVersion)]
          else [], ?_⟩
        simp only [hsnap]
        have hc : (specEnv cfg srv).CheckListFromCacheDataConsistencyIfRequested =
            checkDataConsistency cfg.listDetection := rfl
        rw [hc, hreq]
        simp [pinnedOptions]
      | some e1 =>
        exact ⟨[], by simpa using hlr⟩
    obtain ⟨rest, hrest⟩ := hfall
    exact ⟨⟨_, hrest⟩, fun h => (by cases h), fun _ => ⟨rest, hrest⟩⟩

/-- With detection enabled and a stream that completes at resource version 5, the requests
of a `List` call with empty options are the streaming request and the pinned fetch. -/
theorem List_wire_requests_witness :
    (∃ rest, (daemonSets.List (specEnv (allStreaming true)
        (replayServer [.Added { Name := "a" }, .Bookmark "5" true] (.ok oneItem)))
        ⟨"default"⟩ ⟨8⟩ {} {}).state.requests = [] ++ streamingQuery :: rest) ∧
    (daemonSets.List (specEnv (allStreaming true)
        (replayServer [.Added { Name := "a" }, .Bookmark "5" true] (.ok oneItem)))
        ⟨"default"⟩ ⟨8⟩ {} {}).state.requests =
      ["allowWatchBookmarks=true&resourceVersionMatch=NotOlderThan&sendInitialEvents=true&watch=true",
       "resourceVersion=5&resourceVersionMatch=Exact"] ∧
    (daemonSets.List (specEnv (allStreaming true)
        (replayServer [.Added { Name := "a" }, .Bookmark "5" true] (.ok oneItem)))
        ⟨"default"⟩ ⟨8⟩ {} {}).state.fatal = [] :=
  ⟨(List_wire_requests (allStreaming true)
      (replayServer [.Added { Name := "a" }, .Bookmark "5" true] (.ok oneItem))
      ⟨"default"⟩ ⟨8⟩ {} rfl rfl).1, by decide, by decide⟩

/-! ## Detector invocations -/

theorem detections_append {σ : Type} (a b : List (Step σ)) :
    detections (a ++ b) = detections a ++ detections b := by
  induction a with
  | nil => rfl
  | cons x t ih => cases x <;> simp [detections, ih]

/-- C11: on every `List` call that returns successfully exactly one consistency detector is
invoked, as the last step after the retrieval that produced the result: the watch-list
detector, labelled "watchlist request for daemonsets", after a streaming result, and the
list detector, labelled "list request for daemonsets", after a plain list result, never
both, and the state the call leaves is that detector's effect on the state the retrieval
left; on every `List` call that returns an error no detector is invoked and the state is
the plain list request's. -/
theorem List_detector_invocations {σ : Type} (env : Env σ) (c : daemonSets)
    (ctx : Context) (opts : ListOptions) (s : σ) :
    DetectorContract env c ctx opts s (daemonSets.List env c ctx opts s) := by
  have tail : ∀ (t : List (Step σ)) (s0 : σ), detections t = [] →
      DetectorContract env c ctx opts s (daemonSets.ListTail env c ctx opts t s0) := by
    intro t s0 ht
    cases hle : (daemonSets.list env c ctx opts s0).err with
    | none =>
      refine ⟨fun _ => Or.inr ⟨?_, ?_, ⟨t, ?_⟩, s0, ?_, hle, ?_⟩, fun h => ?_⟩
      · simp [ListTail_trace, hle, retrievals_append, retrievals]
      · simp [ListTail_trace, hle, detections_append, detections, ht]
      · simp [ListTail_trace, ListTail_result, hle]
      · simp [ListTail_result]
      · simp [daemonSets.ListTail, hle]
      · exact absurd (by simp [ListTail_err, hle]) h
    | some e =>
      refine ⟨fun h => ?_, fun _ => ⟨?_, s0, ?_⟩⟩
      · simp [ListTail_err, hle] at h
      · simp [ListTail_trace, hle, detections_append, detections, ht]
      · simp [daemonSets.ListTail, hle]
  cases hp : (env.PrepareWatchListOptionsFromListOptions opts).watchListOptionsErr with
  | some e0 =>
    simp only [daemonSets.List, hp]
    exact tail _ _ rfl
  | none =>
    cases hh : (env.PrepareWatchListOptionsFromListOptions opts).hasWatchListOptionsPrepared with
    | false =>
      simp only [daemonSets.List, hp, hh]
      exact tail _ _ rfl
    | true =>
      cases hw : (daemonSets.watchList env c ctx
          (env.PrepareWatchListOptionsFromListOptions opts).watchListOptions s).err with
      | none =>
        simp only [daemonSets.List, hp, hh, hw, if_true]
        refine ⟨fun _ => Or.inl ⟨by simp [retrievals], by simp [detections],
          ⟨[.prepare opts (env.PrepareWatchListOptionsFromListOptions opts)], _, rfl⟩, rfl⟩,
          fun h => absurd rfl h⟩
      | some e2 =>
        simp only [daemonSets.List, hp, hh, hw, if_true]
        exact tail _ _ rfl

/-! ## Timeouts -/

/-- C12 as stated fails: `TimeoutSeconds = 9223372037` is a 64-bit value, yet the timeout
that `list` and `watchList` hand to the request is negative, because the `int64` product
with `time.Second` wraps around; it is not 9223372037 × 1,000,000,000 nanoseconds. -/
theorem timeout_wraps_around :
    (daemonSets.list timeoutProbe ⟨"default"⟩ ⟨0⟩ { TimeoutSeconds := some 9223372037 } []).state
      = [-9223372036709551616] ∧
    (daemonSets.watchList timeoutProbe ⟨"default"⟩ ⟨0⟩
        { TimeoutSeconds := some 9223372037 } []).state = [-9223372036709551616] ∧
    (-(2 : Int) ^ 63 ≤ 9223372037 ∧ (9223372037 : Int) < 2 ^ 63) ∧
    (9223372037 : Int) * 1000000000 ≠ -9223372036709551616 := by
  decide

/-- C12, amended: the timeout that `list` and `watchList` each hand to their request is
zero when `TimeoutSeconds` is unset; when it is set to `t` with
`-9223372036 ≤ t ≤ 9223372036` it is exactly `t × 1,000,000,000` nanoseconds; for every
`t` it is the `int64` product, that is `t × 1,000,000,000` reduced modulo `2^64` into the
signed 64-bit range. -/
theorem list_and_watchList_timeout (c : daemonSets) (ctx : Context) (opts : ListOptions)
    (s : List Int) :
    (daemonSets.list timeoutProbe c ctx opts s).state = s ++ [timeoutOf opts] ∧
    (daemonSets.watchList timeoutProbe c ctx opts s).state = s ++ [timeoutOf opts] ∧
    (opts.TimeoutSeconds = none → timeoutOf opts = 0) ∧
    (∀ t, opts.TimeoutSeconds = some t → -9223372036 ≤ t → t ≤ 9223372036 →
      timeoutOf opts = t * 1000000000) ∧
    (∀ t, opts.TimeoutSeconds = some t →
      -(2 : Int) ^ 63 ≤ timeoutOf opts ∧ timeoutOf opts < 2 ^ 63 ∧
      (timeoutOf opts - t * 1000000000) % 2 ^ 64 = 0) := by
  refine ⟨rfl, rfl, ?_, ?_, ?_⟩
  · intro h
    simp [timeoutOf, h]
  · intro t h h1 h2
    simp only [timeoutOf, h, wrapInt64, timeSecond]
    have hlo : (0 : Int) ≤ t * 1000000000 + 2 ^ 63 := by omega
    have hhi : t * 1000000000 + 2 ^ 63 < 2 ^ 64 := by omega
    rw [Int.emod_eq_of_lt hlo hhi]
    omega
  · intro t h
    simp only [timeoutOf, h, wrapInt64, timeSecond]
    have hpos : (0 : Int) < 2 ^ 64 := by norm_num
    have h0 := Int.emod_nonneg (t * 1000000000 + 2 ^ 63) (ne_of_gt hpos)
    have h1 := Int.emod_lt_of_pos (t * 1000000000 + 2 ^ 63) hpos
    refine ⟨by omega, by omega, ?_⟩
    have hd := Int.emod_add_ediv (t * 1000000000 + 2 ^ 63) (2 ^ 64)
    have he : (t * 1000000000 + 2 ^ 63) % 2 ^ 64 - 2 ^ 63 - t * 1000000000 =
        2 ^ 64 * (-((t * 1000000000 + 2 ^ 63) / 2 ^ 64)) := by
      linarith
    rw [he]
    exact Int.mul_emod_right _ _

/-! ## `daemonSets.List` and `podMetricses.List` -/

theorem podRetrievals_append {τ : Type} (a b : List (PodStep τ)) :
    podRetrievals (a ++ b) = podRetrievals a ++ podRetrievals b := by
  induction a with
  | nil => rfl
  | cons x t ih => cases x <;> simp [podRetrievals, ih]

theorem renamed_append (a b e : String) (h : Renamed a b) : Renamed (a ++ e) (b ++ e) := by
  obtain ⟨pre, post, ha, hb⟩ := h
  exact ⟨pre, post ++ e, by rw [ha, String.append_assoc], by rw [hb, String.append_assoc]⟩

theorem renamed_prepare_warning :
    Renamed "Failed preparing watchlist options for daemonsets, falling back to the standard LIST semantics, err = "
      "Failed preparing watchlist options for pods, falling back to the standard LIST semantics, err = " :=
  ⟨"Failed preparing watchlist options for ",
   ", falling back to the standard LIST semantics, err = ", by decide, by decide⟩

theorem renamed_watchList_warning :
    Renamed "The watchlist request for daemonsets ended with an error, falling back to the standard LIST semantics, err = "
      "The watchlist request for pods ended with an error, falling back to the standard LIST semantics, err = " :=
  ⟨"The watchlist request for ",
   " ended with an error, falling back to the standard LIST semantics, err = ",
   by decide, by decide⟩

theorem renamed_watchList_label :
    Renamed "watchlist request for daemonsets" "watchlist request for pods" :=
  ⟨"watchlist request for ", "", by decide, by decide⟩

theorem renamed_list_label :
    Renamed "list request for daemonsets" "list request for pods" :=
  ⟨"list request for ", "", by decide, by decide⟩

theorem ListTail_corresponds {σ τ : Type} (Rs : σ → τ → Prop)
    (Rl : DaemonSetList → PodMetricsList → Prop)
    (envD : Env σ) (envP : PodEnv τ) (ns : String) (ctx : Context) (opts : ListOptions)
    (hlist : fnRel Rs Rl (daemonSets.list envD ⟨ns⟩) (podMetricses.list envP ⟨ns⟩))
    (hcl : ∀ ctx a b f g o r r' s t, Renamed a b → fnRel Rs Rl f g → optRel Rl r r' → Rs s t →
      Rs (envD.CheckListFromCacheDataConsistencyIfRequested ctx a f o r s)
         (envP.CheckListFromCacheDataConsistencyIfRequested ctx b g o r' t))
    (tr : List (Step σ)) (tr' : List (PodStep τ)) (s : σ) (t : τ)
    (htr : List.Forall₂ (StepRel Rs Rl) tr tr')
    (hret : retrievals tr = podRetrievals tr') (hs : Rs s t) :
    runRel Rs Rl (daemonSets.ListTail envD ⟨ns⟩ ctx opts tr s)
      (podMetricses.ListTail envP ⟨ns⟩ ctx opts tr' t) := by
  obtain ⟨he, hr, hst⟩ := hlist ctx opts s t hs
  cases hle : (daemonSets.list envD ⟨ns⟩ ctx opts s).err with
  | none =>
    have hle' : (podMetricses.list envP ⟨ns⟩ ctx opts t).err = none := by rw [← he, hle]
    simp only [daemonSets.ListTail, podMetricses.ListTail, hle, hle']
    refine ⟨rfl, hr, hcl _ _ _ _ _ _ _ _ _ _ renamed_list_label hlist hr hst, ?_, ?_⟩
    · simp [retrievals_append, podRetrievals_append, retrievals, podRetrievals, hret]
    · exact List.rel_append htr
        (List.Forall₂.cons (StepRel.list _ _ _ _ hr)
          (List.Forall₂.cons (StepRel.checkList _ _ _ _ _ _ _ renamed_list_label hlist hr)
            List.Forall₂.nil))
  | some e =>
    have hle' : (podMetricses.list envP ⟨ns⟩ ctx opts t).err = some e := by rw [← he, hle]
    simp only [daemonSets.ListTail, podMetricses.ListTail, hle, hle']
    refine ⟨rfl, hr, hst, ?_, ?_⟩
    · simp [retrievals_append, podRetrievals_append, retrievals, podRetrievals, hret]
    · exact List.rel_append htr
        (List.Forall₂.cons (StepRel.list _ _ _ _ hr) List.Forall₂.nil)

/-- C13: `daemonSets.List` and `podMetricses.List` are the same function of their
collaborators. When option preparation answers the same, the streaming attempts have the
same outcomes, the plain list requests have the same outcomes and the detectors act the
same on the same arguments, the two runs return the same error and corresponding results,
take the same path, and make step by step the same calls with the same arguments, the
texts differing only in "daemonsets" versus "pods"; the requests they build differ only in
the resource name. -/
theorem List_corresponds_to_podMetricses_List {σ τ : Type} (Rs : σ → τ → Prop)
    (Rl : DaemonSetList → PodMetricsList → Prop)
    (envD : Env σ) (envP : PodEnv τ) (ns : String) (ctx : Context) (opts : ListOptions)
    (s : σ) (t : τ)
    (hprep : envD.PrepareWatchListOptionsFromListOptions opts =
      envP.PrepareWatchListOptionsFromListOptions opts)
    (hwatch : fnRel Rs Rl (daemonSets.watchList envD ⟨ns⟩) (podMetricses.watchList envP ⟨ns⟩))
    (hlist : fnRel Rs Rl (daemonSets.list envD ⟨ns⟩) (podMetricses.list envP ⟨ns⟩))
    (hcw : ∀ ctx a b f g o r r' s t, Renamed a b → fnRel Rs Rl f g → optRel Rl r r' → Rs s t →
      Rs (envD.CheckWatchListFromCacheDataConsistencyIfRequested ctx a f o r s)
         (envP.CheckWatchListFromCacheDataConsistencyIfRequested ctx b g o r' t))
    (hcl : ∀ ctx a b f g o r r' s t, Renamed a b → fnRel Rs Rl f g → optRel Rl r r' → Rs s t →
      Rs (envD.CheckListFromCacheDataConsistencyIfRequested ctx a f o r s)
         (envP.CheckListFromCacheDataConsistencyIfRequested ctx b g o r' t))
    (hs : Rs s t) :
    runRel Rs Rl (daemonSets.List envD ⟨ns⟩ ctx opts s) (podMetricses.List envP ⟨ns⟩ ctx opts t) ∧
    (∀ o, podMetricses.listRequest ⟨ns⟩ o =
      { daemonSets.listRequest ⟨ns⟩ o with resource := "pods" }) ∧
    (∀ o, (daemonSets.listRequest ⟨ns⟩ o).resource = "daemonsets") := by
  refine ⟨?_, fun _ => rfl, fun _ => rfl⟩
  have hp0 : StepRel Rs Rl
      (Step.prepare opts (envD.PrepareWatchListOptionsFromListOptions opts))
      (PodStep.prepare opts (envD.PrepareWatchListOptionsFromListOptions opts)) :=
    StepRel.prepare opts (envD.PrepareWatchListOptionsFromListOptions opts)
  cases hp : (envD.PrepareWatchListOptionsFromListOptions opts).watchListOptionsErr with
  | some e0 =>
    have hp' : (envP.PrepareWatchListOptionsFromListOptions opts).watchListOptionsErr
        = some e0 := by rw [← hprep, hp]
    simp only [daemonSets.List, podMetricses.List, hp, hp']
    refine ListTail_corresponds Rs Rl envD envP ns ctx opts hlist hcl _ _ s t ?_ rfl hs
    rw [← hprep]
    exact List.Forall₂.cons hp0
      (List.Forall₂.cons (StepRel.warning _ _ (renamed_append _ _ e0 renamed_prepare_warning))
        List.Forall₂.nil)
  | none =>
    have hp' : (envP.PrepareWatchListOptionsFromListOptions opts).watchListOptionsErr
        = none := by rw [← hprep, hp]
    cases hh : (envD.PrepareWatchListOptionsFromListOptions opts).hasWatchListOptionsPrepared with
    | false =>
      have hh' : (envP.PrepareWatchListOptionsFromListOptions opts).hasWatchListOptionsPrepared
          = false := by rw [← hprep, hh]
      simp only [daemonSets.List, podMetricses.List, hp, hp', hh, hh']
      refine ListTail_corresponds Rs Rl envD envP ns ctx opts hlist hcl _ _ s t ?_ rfl hs
      rw [← hprep]
      exact List.Forall₂.cons hp0 List.Forall₂.nil
    | true =>
      have hh' : (envP.PrepareWatchListOptionsFromListOptions opts).hasWatchListOptionsPrepared
          = true := by rw [← hprep, hh]
      obtain ⟨he, hr, hst⟩ := hwatch ctx
        (envD.PrepareWatchListOptionsFromListOptions opts).watchListOptions s t hs
      cases hw : (daemonSets.watchList envD ⟨ns⟩ ctx
          (envD.PrepareWatchListOptionsFromListOptions opts).watchListOptions s).err with
      | none =>
        have hw' : (podMetricses.watchList envP ⟨ns⟩ ctx
            (envP.PrepareWatchListOptionsFromListOptions opts).watchListOptions t).err
            = none := by rw [← hprep, ← he, hw]
        simp only [daemonSets.List, podMetricses.List, hp, hp', hh, hh', hw, hw', if_true]
        rw [← hprep]
        refine ⟨rfl, hr, hcw _ _ _ _ _ _ _ _ _ _ renamed_watchList_label hlist hr hst, rfl, ?_⟩
        exact List.Forall₂.cons hp0
          (List.Forall₂.cons (StepRel.watchList _ _ _ _ hr)
            (List.Forall₂.cons
              (StepRel.checkWatchList _ _ _ _ _ _ _ renamed_watchList_label hlist hr)
              List.Forall₂.nil))
      | some e2 =>
        have hw' : (podMetricses.watchList envP ⟨ns⟩ ctx
            (envP.PrepareWatchListOptionsFromListOptions opts).watchListOptions t).err
            = some e2 := by rw [← hprep, ← he, hw]
        simp only [daemonSets.List, podMetricses.List, hp, hp', hh, hh', hw, hw', if_true]
        rw [← hprep]
        refine ListTail_corresponds Rs Rl envD envP ns ctx opts hlist hcl _ _ _ _ ?_ rfl hst
        exact List.Forall₂.cons hp0
          (List.Forall₂.cons (StepRel.watchList _ _ _ _ hr)
            (List.Forall₂.cons
              (StepRel.warning _ _ (renamed_append _ _ e2 renamed_watchList_warning))
              List.Forall₂.nil))

/-- Two scripted clients whose streaming attempts both fail with "stream closed" and whose
plain list requests both yield one item named "a" at version 5 return the same error, and
both take the path streaming attempt, then plain list request. -/
theorem List_corresponds_to_podMetricses_List_witness :
    (daemonSets.List (scriptEnv ⟨streamingOptions, true, none⟩ ({}, some "stream closed")
        (oneItem, none)) ⟨"default"⟩ ⟨9⟩ {} 0).err =
      (podMetricses.List (podScriptEnv ⟨streamingOptions, true, none⟩ ({}, some "stream closed")
        (onePodItem, none)) ⟨"default"⟩ ⟨9⟩ {} 0).err ∧
    retrievals (daemonSets.List (scriptEnv ⟨streamingOptions, true, none⟩
        ({}, some "stream closed") (oneItem, none)) ⟨"default"⟩ ⟨9⟩ {} 0).trace =
      podRetrievals (podMetricses.List (podScriptEnv ⟨streamingOptions, true, none⟩
        ({}, some "stream closed") (onePodItem, none)) ⟨"default"⟩ ⟨9⟩ {} 0).trace ∧
    podRetrievals (podMetricses.List (podScriptEnv ⟨streamingOptions, true, none⟩
        ({}, some "stream closed") (onePodItem, none)) ⟨"default"⟩ ⟨9⟩ {} 0).trace =
      [Retrieval.watchList, Retrieval.list] ∧
    (podMetricses.List (podScriptEnv ⟨streamingOptions, true, none⟩ ({}, some "stream closed")
        (onePodItem, none)) ⟨"default"⟩ ⟨9⟩ {} 0).result = some onePodItem :=
  have h := (List_corresponds_to_podMetricses_List (fun a b : Nat => a = b) sameShape
    (scriptEnv ⟨streamingOptions, true, none⟩ ({}, some "stream closed") (oneItem, none))
    (podScriptEnv ⟨streamingOptions, true, none⟩ ({}, some "stream closed") (onePodItem, none))
    "default" ⟨9⟩ {} 0 0 rfl
    (fun _ _ _ _ hst => ⟨rfl, ⟨rfl, rfl⟩, congrArg (fun n => n + 1) hst⟩)
    (fun _ _ _ _ hst => ⟨rfl, ⟨rfl, rfl⟩, congrArg (fun n => n + 1) hst⟩)
    (fun _ _ _ _ _ _ _ _ _ _ _ _ _ hst => hst)
    (fun _ _ _ _ _ _ _ _ _ _ _ _ _ hst => hst)
    rfl).1
  ⟨h.1, h.2.2.2.1, rfl, rfl⟩

end K8s
